import Mathlib

/-!
Verification of the tiny printf engine (printf.c, Marco Paland / IvanJohansen fork).

Shallow embedding notes.

* Platform: the source states it is "Optimized for low stack use on ARM" (32-bit).
  We model the ILP32 / 32-bit ARM data model the code targets:
  int = long = 32 bits, long long = 64 bits, size_t = ptrdiff_t = 32 bits,
  intmax_t = 64 bits, sizeof(void*) = 4, plain char is unsigned (ARM AAPCS).
  Consequently, in format_out's length handling: 't' and 'z' select FLAGS_LONG,
  'j' selects FLAGS_LONG_LONG, and the %p conversion takes the `ntoa_long`
  path with field width 8.  The pow10_long table (10 entries up to 10^9) is
  exactly the digit table for 32-bit unsigned long on this platform.

* The C `data_t` carries an output callback `out` and an opaque `ptr`.  The
  interpreter only ever calls `out(c, ptr)` (which returns nothing) and never
  reads sink state, so the pair is modelled by accumulating the exact sequence
  of characters handed to `out` in the field `emitted`; the two concrete sinks
  (`out_char`, `out_sprintf`) are then folds over that sequence.

* `uint8_t` fields (`idx`, `width`, `precision`, `digit_count`) are Nat with
  `% 256` applied exactly where C truncates; `uint16_t flags` is a bit-set of
  independent bits, modelled as a structure of Bools (one per FLAGS_* bit).

* C strings (the `%s` argument) are `List Char`: the bytes before the
  terminating null.  The format string for the main model is likewise a
  `List Char`; reading the terminator (e.g. the truncated-directive `default:`
  branch) is modelled by the empty-list cases, which corresponds to a memory
  in which the byte after the terminating null is again null.  A second,
  memory-faithful scanner over `mem : Nat → Char` (with explicit fuel) is
  defined further below to settle the out-of-bounds-read claim.
-/

/-- The null character (C `'\0'`). -/
def nulChar : Char := Char.ofNat 0

/-- `typedef enum {BASE_BINARY, BASE_OCTAL, BASE_DECIMAL, BASE_HEX} base_t;` -/
inductive base_t
  | BASE_BINARY
  | BASE_OCTAL
  | BASE_DECIMAL
  | BASE_HEX
deriving DecidableEq, Repr

open base_t

/-- The `uint16_t flags` bit-set: one Bool per FLAGS_* bit of printf.c. -/
structure Flags where
  zeropad : Bool    -- FLAGS_ZEROPAD
  left : Bool       -- FLAGS_LEFT
  plus : Bool       -- FLAGS_PLUS
  space : Bool      -- FLAGS_SPACE
  hash : Bool       -- FLAGS_HASH
  uppercase : Bool  -- FLAGS_UPPERCASE
  char : Bool       -- FLAGS_CHAR
  short : Bool      -- FLAGS_SHORT
  long : Bool       -- FLAGS_LONG
  longLong : Bool   -- FLAGS_LONG_LONG
  precision : Bool  -- FLAGS_PRECISION
  adaptExp : Bool   -- FLAGS_ADAPT_EXP
  negative : Bool   -- FLAGS_NEGATIVE
deriving DecidableEq, Repr

/-- `data.flags = 0`. -/
def flagsNone : Flags :=
  ⟨false, false, false, false, false, false, false, false, false, false, false, false, false⟩

/-- The C `data_t`.  `out`/`ptr` are replaced by the list of characters the
interpreter hands to `out`, in order (see header comment). -/
structure data_t where
  flags : Flags
  idx : Nat          -- uint8_t
  width : Nat        -- uint8_t
  precision : Nat    -- uint8_t
  base : base_t
  digit_count : Nat  -- uint8_t
  emitted : List Char
deriving DecidableEq, Repr

/-- One variadic argument slot. -/
inductive arg_t
  | num (v : Int)        -- an integer of any width (read back at the width the directive asks)
  | str (s : List Char)  -- a char* argument: the bytes before the terminating null
  | ptr (p : Nat)        -- a void* argument (32-bit address)
deriving DecidableEq, Repr

/-- `static const unsigned long pow10_long[] = { 1, 10, ..., 1000000000 };` -/
def pow10_long : List Nat :=
  [1, 10, 100, 1000, 10000, 100000, 1000000, 10000000, 100000000, 1000000000]

/-- `static const unsigned long long pow10_long_long[] = { 1ULL, ..., 10000000000000000000ULL };` -/
def pow10_long_long : List Nat :=
  [1, 10, 100, 1000, 10000, 100000, 1000000, 10000000, 100000000, 1000000000,
   10000000000, 100000000000, 1000000000000, 10000000000000, 100000000000000,
   1000000000000000, 10000000000000000, 100000000000000000, 1000000000000000000,
   10000000000000000000]

/-- `static const uint8_t base_bits[] = { 1, 3, 0, 4 };` -/
def base_bits : base_t → Nat
  | BASE_BINARY => 1
  | BASE_OCTAL => 3
  | BASE_DECIMAL => 0
  | BASE_HEX => 4

/-- `static const uint8_t base_mask[] = { 1, 7, 0, 15 };` -/
def base_mask : base_t → Nat
  | BASE_BINARY => 1
  | BASE_OCTAL => 7
  | BASE_DECIMAL => 0
  | BASE_HEX => 15

/-- `do_out`: `data->out(c, data->ptr); data->idx++;` (idx is uint8_t). -/
def do_out (d : data_t) (c : Char) : data_t :=
  { d with emitted := d.emitted ++ [c], idx := (d.idx + 1) % 256 }

/-! ## get_digits -/

/-- The decimal branch of `get_digits_long`/`get_digits_long_long`:
`while (digits < ARRAY_SIZE(tbl) && value >= tbl[digits]) digits++;`
scanned as a recursion over the (ascending) table. -/
def get_digits_dec (value : Nat) : List Nat → Nat
  | [] => 0
  | p :: ps => if value ≥ p then 1 + get_digits_dec value ps else 0

/-- The non-decimal branch: `while (value > 0) { digits++; value >>= bits; }`.
The shift amount is `bitsPred + 1` so the shift is positive and the loop
terminates; callers pass `base_bits base - 1` (base_bits is 1, 3 or 4 for the
non-decimal bases). -/
def shift_digit_count (bitsPred : Nat) (value : Nat) : Nat :=
  if value = 0 then 0 else 1 + shift_digit_count bitsPred (value >>> (bitsPred + 1))
termination_by value
decreasing_by
  simp only [Nat.shiftRight_eq_div_pow]
  exact Nat.div_lt_self (Nat.pos_of_ne_zero (by assumption)) (Nat.one_lt_two_pow (by omega))

/-- `static uint8_t get_digits_long(unsigned long value, base_t base)`. -/
def get_digits_long (value : Nat) (base : base_t) : Nat :=
  match base with
  | BASE_DECIMAL => get_digits_dec value pow10_long
  | BASE_BINARY => shift_digit_count 0 value   -- shift by base_bits = 1
  | BASE_OCTAL => shift_digit_count 2 value    -- shift by base_bits = 3
  | BASE_HEX => shift_digit_count 3 value      -- shift by base_bits = 4

/-- `static uint8_t get_digits_long_long(unsigned long long value, base_t base)`. -/
def get_digits_long_long (value : Nat) (base : base_t) : Nat :=
  match base with
  | BASE_DECIMAL => get_digits_dec value pow10_long_long
  | BASE_BINARY => shift_digit_count 0 value
  | BASE_OCTAL => shift_digit_count 2 value
  | BASE_HEX => shift_digit_count 3 value

/-! ## ntoa_format: layout loops -/

/-- The space-padding loop of `ntoa_format`:
`while (width > 0) { out(' '); idx++; width--; }`, with the current width
passed as the recursion counter. -/
def ntoa_pad_spaces : Nat → data_t → data_t
  | 0, d => d
  | n + 1, d => ntoa_pad_spaces n { do_out d ' ' with width := n }

/-- The leading precision-zeros loop of `ntoa_format`:
`while (precision > 0) { out('0'); idx++; precision--; }`. -/
def ntoa_prec_zeros : Nat → data_t → data_t
  | 0, d => d
  | n + 1, d => ntoa_prec_zeros n { do_out d '0' with precision := n }

/-- The zero-padding loop of `ntoa_format`:
`while ((flags & FLAGS_ZEROPAD) && width > 0) { out('0'); idx++; width--; }`
(the flag is re-tested every iteration but the body never changes it). -/
def ntoa_width_zeros : Nat → data_t → data_t
  | 0, d => d
  | n + 1, d =>
    if d.flags.zeropad then ntoa_width_zeros n { do_out d '0' with width := n } else d

/-- `ntoa_format` lines 201-202: width/precision reduced by digit_count
(`MAX(a - b, 0)` is Nat truncated subtraction). -/
def nf_step_reduce (d : data_t) : data_t :=
  { d with width := d.width - d.digit_count, precision := d.precision - d.digit_count }

/-- `ntoa_format` lines 203-206: reserve one column for a sign character. -/
def nf_step_sign_width (d : data_t) : data_t :=
  if 0 < d.width ∧ (d.flags.negative ∨ d.flags.plus ∨ d.flags.space) then
    { d with width := d.width - 1 }
  else d

/-- `ntoa_format` lines 208-211: reserve the precision columns. -/
def nf_step_prec_width (d : data_t) : data_t :=
  if d.flags.precision then { d with width := d.width - d.precision } else d

/-- `ntoa_format` lines 213-223: reserve the alternate-form columns. -/
def nf_step_hash_width (d : data_t) : data_t :=
  if d.flags.hash then
    if d.base = BASE_HEX ∨ d.base = BASE_BINARY then { d with width := d.width - 2 }
    else if 0 < d.width then { d with width := d.width - 1 }
    else d
  else d

/-- `ntoa_format` lines 225-234: pad spaces up to the given width. -/
def nf_emit_spaces (d : data_t) : data_t :=
  if ¬ d.flags.left ∧ ¬ d.flags.zeropad then ntoa_pad_spaces d.width d else d

/-- `ntoa_format` lines 236-250: emit `-`, else `+`, else space. -/
def nf_emit_sign (d : data_t) : data_t :=
  if d.flags.negative then do_out d '-'
  else if d.flags.plus then do_out d '+'
  else if d.flags.space then do_out d ' '
  else d

/-- `ntoa_format` lines 252-272: emit the alternate-form marker. -/
def nf_emit_radix (d : data_t) : data_t :=
  if d.flags.hash then
    let d1 := do_out d '0'
    if d1.base = BASE_HEX ∧ ¬ d1.flags.uppercase then do_out d1 'x'
    else if d1.base = BASE_HEX ∧ d1.flags.uppercase then do_out d1 'X'
    else if d1.base = BASE_BINARY then do_out d1 'b'
    else d1
  else d

/-- `ntoa_format` lines 274-289: pad leading zeros (precision, then zero-pad). -/
def nf_emit_zeros (d : data_t) : data_t :=
  if ¬ d.flags.left then
    let d1 := ntoa_prec_zeros d.precision d
    ntoa_width_zeros d1.width d1
  else d

/-- `static void ntoa_format(data_t *data)` as the composition of its
sequential statements. -/
def ntoa_format (d : data_t) : data_t :=
  nf_emit_zeros (nf_emit_radix (nf_emit_sign (nf_emit_spaces
    (nf_step_hash_width (nf_step_prec_width (nf_step_sign_width (nf_step_reduce d)))))))

/-! ## ntoa_long / ntoa_long_long -/

/-- The decimal digit loop of `ntoa_long`:
`while (digit_count > 0) { digit_count--; l = pow10_long[digit_count];
digit = value / l; value %= l; out(digit + '0'); idx++; }`.
`digit` is a uint8_t, hence `% 256`; `digit + '0'` is converted to char. -/
def ntoa_dec_long : Nat → Nat → data_t → data_t
  | 0, _, d => d
  | n + 1, value, d =>
    let l := pow10_long.getD n 1
    let digit := (value / l) % 256
    ntoa_dec_long n (value % l)
      (do_out { d with digit_count := n } (Char.ofNat ((digit + 48) % 256)))

/-- Same loop for `ntoa_long_long` over `pow10_long_long`. -/
def ntoa_dec_long_long : Nat → Nat → data_t → data_t
  | 0, _, d => d
  | n + 1, value, d =>
    let l := pow10_long_long.getD n 1
    let digit := (value / l) % 256
    ntoa_dec_long_long n (value % l)
      (do_out { d with digit_count := n } (Char.ofNat ((digit + 48) % 256)))

/-- One digit character of a power-of-two base:
`digit < 10 ? '0' + digit : (uppercase ? 'A' : 'a') + digit - 10`. -/
def base_digit_char (digit : Nat) (uppercase : Bool) : Char :=
  if digit < 10 then Char.ofNat (48 + digit)
  else Char.ofNat ((if uppercase then 65 else 97) + digit - 10)

/-- The power-of-two-base digit loop of `ntoa_long`/`ntoa_long_long`:
`for (; digit_count > 0; digit_count--) {
  digit = (value >> (digit_count-1)*base_bits[base]) & base_mask[base]; out(...); idx++; }`
(the long-long version uses its own identical bits/mask tables). -/
def ntoa_base_loop (bits mask : Nat) (uppercase : Bool) (value : Nat) :
    Nat → data_t → data_t
  | 0, d => d
  | n + 1, d =>
    let digit := (value >>> (n * bits)) &&& mask
    ntoa_base_loop bits mask uppercase value n
      (do_out { d with digit_count := n } (base_digit_char digit uppercase))

/-- The trailing left-justification padding of `ntoa_long`/`ntoa_long_long`:
`while (width > 0) { data->out(' ', data->ptr); width--; }`.
Note the source does NOT increment `idx` here (unlike every other emission). -/
def ntoa_trail_spaces : Nat → data_t → data_t
  | 0, d => d
  | n + 1, d => ntoa_trail_spaces n { d with emitted := d.emitted ++ [' '], width := n }

/-- `static void ntoa_long(data_t *data, unsigned long value)`. -/
def ntoa_long (d : data_t) (value : Nat) : data_t :=
  let d1 :=
    if ¬ d.flags.precision ∨ value ≠ 0 then
      if value = 0 then do_out d '0'
      else if d.base = BASE_DECIMAL then ntoa_dec_long d.digit_count value d
      else ntoa_base_loop (base_bits d.base) (base_mask d.base) d.flags.uppercase value
             d.digit_count d
    else d
  if d1.flags.left then ntoa_trail_spaces d1.width d1 else d1

/-- `static void ntoa_long_long(data_t *data, unsigned long long value)`. -/
def ntoa_long_long (d : data_t) (value : Nat) : data_t :=
  let d1 :=
    if ¬ d.flags.precision ∨ value ≠ 0 then
      if value = 0 then do_out d '0'
      else if d.base = BASE_DECIMAL then ntoa_dec_long_long d.digit_count value d
      else ntoa_base_loop (base_bits d.base) (base_mask d.base) d.flags.uppercase value
             d.digit_count d
    else d
  if d1.flags.left then ntoa_trail_spaces d1.width d1 else d1

/-- `static inline void pre_format_long(data_t *data, unsigned long value, bool negative)`. -/
def pre_format_long (d : data_t) (value : Nat) (negative : Bool) : data_t :=
  let d1 := { d with digit_count := get_digits_long value d.base }
  let d2 := if value = 0 then { d1 with flags := { d1.flags with hash := false } } else d1
  if negative then { d2 with flags := { d2.flags with negative := true } } else d2

/-- `static inline void pre_format_long_long(data_t *data, unsigned long long value, bool negative)`. -/
def pre_format_long_long (d : data_t) (value : Nat) (negative : Bool) : data_t :=
  let d1 := { d with digit_count := get_digits_long_long value d.base }
  let d2 := if value = 0 then { d1 with flags := { d1.flags with hash := false } } else d1
  if negative then { d2 with flags := { d2.flags with negative := true } } else d2

/-! ## String renderer -/

/-- `static inline unsigned int strnlen_s(const char* str, size_t maxsize)`:
`while (*s != 0 && maxsize > 0) { ++s; --maxsize; }  return s - str;`
(the list may contain an embedded null, which acts as the terminator). -/
def strnlen_s (s : List Char) (maxsize : Nat) : Nat :=
  match s with
  | [] => 0
  | c :: cs => if c = nulChar then 0 else if maxsize = 0 then 0 else 1 + strnlen_s cs (maxsize - 1)

/-- The `while (l++ < data->width)` space-padding loop used by `print_string`
and by the `%c` case (the loop never changes the width, so it is passed as a
plain parameter). -/
def pad_l_loop (w : Nat) (l : Nat) (d : data_t) : data_t :=
  if l < w then pad_l_loop w (l + 1) (do_out d ' ') else d
termination_by w - l

/-- The string-output loop of `print_string`:
`while (*p != 0 && (!(flags & FLAGS_PRECISION) || data->precision--)) { out(*p++); idx++; }`
`precision--` is a uint8_t post-decrement: when it is 0 the condition fails and
the field wraps to 255. -/
def print_string_chars : List Char → data_t → data_t
  | [], d => d
  | c :: cs, d =>
    if c = nulChar then d
    else if ¬ d.flags.precision then print_string_chars cs (do_out d c)
    else if d.precision ≠ 0 then print_string_chars cs (do_out { d with precision := d.precision - 1 } c)
    else { d with precision := 255 }

/-- `static void print_string(data_t *data, const char *p)`.
`(size_t)-1` is 2^32 - 1 on the modelled platform. -/
def print_string (d : data_t) (p : List Char) : data_t :=
  let l := strnlen_s p (if d.precision ≠ 0 then d.precision else 2 ^ 32 - 1)
  let l := if d.flags.precision then (if l < d.precision then l else d.precision) else l
  let d1 := if ¬ d.flags.left then pad_l_loop d.width l d else d
  let d2 := print_string_chars p d1
  if d2.flags.left then pad_l_loop d2.width l d2 else d2

/-! ## The directive scanner (format_out) -/

/-- `static inline bool is_digit(char ch)`. -/
def is_digit (c : Char) : Bool := '0' ≤ c ∧ c ≤ '9'

/-- The accumulator loop of `static unsigned int atoi(const char** str)`:
`i = i * 10U + (*((*str)++) - '0');` in unsigned-int (mod 2^32) arithmetic.
Returns the value and the rest of the format string. -/
def atoi_loop (i : Nat) : List Char → Nat × List Char
  | [] => (i, [])
  | c :: cs =>
    if is_digit c then atoi_loop ((i * 10 + (c.toNat - 48)) % 2 ^ 32) cs else (i, c :: cs)

/-- `atoi`, starting from `0U`. -/
def atoi (s : List Char) : Nat × List Char := atoi_loop 0 s

/-- Reinterpret a variadic slot as a signed 32-bit `int` (= `long` here). -/
def toInt32 (v : Int) : Int := (v + 2 ^ 31) % 2 ^ 32 - 2 ^ 31

/-- Reinterpret as a signed 16-bit `short`. -/
def toInt16 (v : Int) : Int := (v + 2 ^ 15) % 2 ^ 16 - 2 ^ 15

/-- Reinterpret as a signed 64-bit `long long`. -/
def toInt64 (v : Int) : Int := (v + 2 ^ 63) % 2 ^ 64 - 2 ^ 63

/-- `va_arg(va, int)` (and `va_arg(va, long)`: long is 32-bit here). -/
def va_arg_int : List arg_t → Int × List arg_t
  | arg_t.num v :: rest => (toInt32 v, rest)
  | _ :: rest => (0, rest)
  | [] => (0, [])

/-- `va_arg(va, long long)`. -/
def va_arg_longlong : List arg_t → Int × List arg_t
  | arg_t.num v :: rest => (toInt64 v, rest)
  | _ :: rest => (0, rest)
  | [] => (0, [])

/-- `va_arg(va, unsigned int)` / `va_arg(va, unsigned long)`. -/
def va_arg_uint : List arg_t → Nat × List arg_t
  | arg_t.num v :: rest => (((v % 2 ^ 32).toNat), rest)
  | _ :: rest => (0, rest)
  | [] => (0, [])

/-- `va_arg(va, unsigned long long)`. -/
def va_arg_ulonglong : List arg_t → Nat × List arg_t
  | arg_t.num v :: rest => (((v % 2 ^ 64).toNat), rest)
  | _ :: rest => (0, rest)
  | [] => (0, [])

/-- `va_arg(va, char*)`. -/
def va_arg_str : List arg_t → List Char × List arg_t
  | arg_t.str s :: rest => (s, rest)
  | _ :: rest => ([], rest)
  | [] => ([], [])

/-- `(uintptr_t)va_arg(va, void*)` (32-bit addresses). -/
def va_arg_ptr : List arg_t → Nat × List arg_t
  | arg_t.ptr p :: rest => (p % 2 ^ 32, rest)
  | _ :: rest => (0, rest)
  | [] => (0, [])

/-- The flags do-while loop of `format_out` (lines 517-529): consume
`0 - + # ` (space) in any order and set the corresponding bits. -/
def parse_flags : List Char → Flags → Flags × List Char
  | [], f => (f, [])
  | c :: rest, f =>
    if c = '0' then parse_flags rest { f with zeropad := true }
    else if c = '-' then parse_flags rest { f with left := true }
    else if c = '+' then parse_flags rest { f with plus := true }
    else if c = ' ' then parse_flags rest { f with space := true }
    else if c = '#' then parse_flags rest { f with hash := true }
    else (f, c :: rest)

/-- The width field of `format_out` (lines 531-550).  `data.width` is a
uint8_t, so assignments truncate mod 256; `(unsigned int)-w` and
`(unsigned int)w` are mod 2^32. -/
def parse_width (fmt : List Char) (args : List arg_t) (d : data_t) :
    data_t × List arg_t × List Char :=
  let d := { d with width := 0 }
  match fmt with
  | [] => (d, args, [])
  | c :: rest =>
    if is_digit c then
      let r := atoi (c :: rest)
      ({ d with width := r.1 % 256 }, args, r.2)
    else if c = '*' then
      let r := va_arg_int args
      if r.1 < 0 then
        ({ d with flags := { d.flags with left := true },
                  width := ((-r.1) % 2 ^ 32).toNat % 256 }, r.2, rest)
      else
        ({ d with width := (r.1 % 2 ^ 32).toNat % 256 }, r.2, rest)
    else (d, args, c :: rest)

/-- The precision field of `format_out` (lines 552-568). -/
def parse_precision (fmt : List Char) (args : List arg_t) (d : data_t) :
    data_t × List arg_t × List Char :=
  let d := { d with precision := 0 }
  match fmt with
  | [] => (d, args, [])
  | c :: rest =>
    if c = '.' then
      let d := { d with flags := { d.flags with precision := true } }
      match rest with
      | [] => (d, args, [])
      | c2 :: rest2 =>
        if is_digit c2 then
          let r := atoi (c2 :: rest2)
          ({ d with precision := r.1 % 256 }, args, r.2)
        else if c2 = '*' then
          let r := va_arg_int args
          ({ d with precision := (if r.1 > 0 then (r.1 % 2 ^ 32).toNat else 0) % 256 }, r.2, rest2)
        else (d, args, c2 :: rest2)
    else (d, args, c :: rest)

/-- The length field of `format_out` (lines 570-611).  On the modelled 32-bit
platform: sizeof(ptrdiff_t) == sizeof(long) and sizeof(size_t) == sizeof(long)
(so 't' and 'z' select FLAGS_LONG), while sizeof(intmax_t) != sizeof(long)
(so 'j' selects FLAGS_LONG_LONG). -/
def parse_length (fmt : List Char) (d : data_t) : data_t × List Char :=
  match fmt with
  | [] => (d, [])
  | c :: rest =>
    if c = 'l' then
      let d := { d with flags := { d.flags with long := true } }
      match rest with
      | 'l' :: rest2 => ({ d with flags := { d.flags with longLong := true } }, rest2)
      | _ => (d, rest)
    else if c = 'h' then
      let d := { d with flags := { d.flags with short := true } }
      match rest with
      | 'h' :: rest2 => ({ d with flags := { d.flags with char := true } }, rest2)
      | _ => (d, rest)
    else if c = 't' then ({ d with flags := { d.flags with long := true } }, rest)
    else if c = 'j' then ({ d with flags := { d.flags with longLong := true } }, rest)
    else if c = 'z' then ({ d with flags := { d.flags with long := true } }, rest)
    else (d, c :: rest)

/-- The integer-conversion body of the `d i u x X o b` case (lines 616-715),
given the specifier character. -/
def conv_int (c : Char) (args : List arg_t) (d : data_t) : data_t × List arg_t :=
  -- set the base (and clear hash for the decimal formats)
  let d :=
    if c = 'x' ∨ c = 'X' then { d with base := BASE_HEX }
    else if c = 'o' then { d with base := BASE_OCTAL }
    else if c = 'b' then { d with base := BASE_BINARY }
    else { d with base := BASE_DECIMAL, flags := { d.flags with hash := false } }
  let d := if c = 'X' then { d with flags := { d.flags with uppercase := true } } else d
  -- no plus or space flag for u, x, X, o, b
  let d :=
    if c ≠ 'i' ∧ c ≠ 'd' then { d with flags := { d.flags with plus := false, space := false } }
    else d
  -- ignore '0' flag when precision is given
  let d := if d.flags.precision then { d with flags := { d.flags with zeropad := false } } else d
  if c = 'i' ∨ c = 'd' then
    -- signed
    if d.flags.longLong then
      let r := va_arg_longlong args
      let m := r.1.natAbs % 2 ^ 64  -- ABS(value), converted to unsigned long long
      let d := pre_format_long_long d m (decide (r.1 < 0))
      let d := ntoa_format d
      (ntoa_long_long d m, r.2)
    else if d.flags.long then
      let r := va_arg_int args  -- long is 32-bit on this platform
      let m := r.1.natAbs % 2 ^ 32
      let d := pre_format_long d m (decide (r.1 < 0))
      let d := ntoa_format d
      (ntoa_long d m, r.2)
    else
      -- (char)va_arg(va, int) with plain char unsigned (ARM), or (short)va_arg(va, int)
      let r := va_arg_int args
      let v := if d.flags.char then r.1 % 2 ^ 8 else if d.flags.short then toInt16 r.1 else r.1
      let m := v.natAbs % 2 ^ 32
      let d := pre_format_long d m (decide (v < 0))
      let d := ntoa_format d
      (ntoa_long d m, r.2)
  else
    -- unsigned
    if d.flags.longLong then
      let r := va_arg_ulonglong args
      let d := pre_format_long_long d r.1 false
      let d := ntoa_format d
      (ntoa_long_long d r.1, r.2)
    else if d.flags.long then
      let r := va_arg_uint args
      let d := pre_format_long d r.1 false
      let d := ntoa_format d
      (ntoa_long d r.1, r.2)
    else
      let r := va_arg_uint args
      let v := if d.flags.char then r.1 % 2 ^ 8 else if d.flags.short then r.1 % 2 ^ 16 else r.1
      let d := pre_format_long d v false
      let d := ntoa_format d
      (ntoa_long d v, r.2)

/-- The specifier switch of `format_out` (lines 613-784), given the character
at the specifier position.  Every branch in the source consumes exactly one
character (`format++`), including the `default:` fallback, so the position
bookkeeping is left to the caller. -/
def conv_spec (c : Char) (args : List arg_t) (d : data_t) : data_t × List arg_t :=
  if c = 'd' ∨ c = 'i' ∨ c = 'u' ∨ c = 'x' ∨ c = 'X' ∨ c = 'o' ∨ c = 'b' then
    conv_int c args d
  else if c = 'c' then
    -- case 'c' (lines 717-740); plain char is unsigned on the modelled platform
    let d := if ¬ d.flags.left then pad_l_loop d.width 1 d else d
    let r := va_arg_int args
    let d := do_out d (Char.ofNat (r.1 % 2 ^ 8).toNat)
    let d := if d.flags.left then pad_l_loop d.width 1 d else d
    (d, r.2)
  else if c = 's' then
    let r := va_arg_str args
    (print_string d r.1, r.2)
  else if c = 'p' then
    -- case 'p' (lines 747-773): sizeof(void*) == 4, so width = 8 and
    -- sizeof(uintptr_t) != sizeof(long long): the ntoa_long path is taken
    let d := { d with width := 8,
                      flags := { d.flags with zeropad := true, uppercase := true },
                      base := BASE_HEX }
    let r := va_arg_ptr args
    let d := pre_format_long d r.1 false
    let d := ntoa_format d
    (ntoa_long d r.1, r.2)
  else if c = '%' then
    (do_out d '%', args)
  else
    (do_out d c, args)

/-- One `%` directive: flags, width, precision, length, then the specifier
switch.  Returns the new interpreter state, the remaining arguments and the
remaining format characters.  When the format list is exhausted the source
reads the terminating null at the specifier position, takes the `default:`
branch (emitting the null), and steps past the terminator; the empty-list
case models the following byte being null as well (see the header comment and
the memory-faithful model below). -/
def eval_directive (fmt : List Char) (args : List arg_t) (d : data_t) :
    data_t × List arg_t × List Char :=
  let rf := parse_flags fmt flagsNone
  let d := { d with flags := rf.1 }
  let rw := parse_width rf.2 args d
  let rp := parse_precision rw.2.2 rw.2.1 rw.1
  let rl := parse_length rp.2.2 rp.1
  match rl.2 with
  | [] =>
    let rc := conv_spec nulChar rp.2.1 rl.1
    (rc.1, rc.2, [])
  | c :: rest =>
    let rc := conv_spec c rp.2.1 rl.1
    (rc.1, rc.2, rest)

/-! ### Length bookkeeping for the main loop's termination -/

theorem parse_flags_length (fmt : List Char) (f : Flags) :
    (parse_flags fmt f).2.length ≤ fmt.length := by
  induction fmt generalizing f with
  | nil => simp [parse_flags]
  | cons c rest ih =>
    simp only [parse_flags]
    split_ifs <;> first
    | exact le_trans (ih _) (by simp)
    | simp

theorem atoi_loop_length (i : Nat) (s : List Char) :
    (atoi_loop i s).2.length ≤ s.length := by
  induction s generalizing i with
  | nil => simp [atoi_loop]
  | cons c rest ih =>
    simp only [atoi_loop]
    split_ifs <;> first
    | exact le_trans (ih _) (by simp)
    | simp

theorem parse_width_length (fmt : List Char) (args : List arg_t) (d : data_t) :
    (parse_width fmt args d).2.2.length ≤ fmt.length := by
  cases fmt with
  | nil => simp [parse_width]
  | cons c rest =>
    by_cases h1 : is_digit c
    · have := atoi_loop_length 0 (c :: rest)
      simp [parse_width, h1, atoi] at this ⊢
      omega
    · by_cases h2 : c = '*'
      · by_cases h3 : (va_arg_int args).1 < 0 <;> simp +decide [parse_width, h1, h2, h3]
      · simp [parse_width, h1, h2]

theorem parse_precision_length (fmt : List Char) (args : List arg_t) (d : data_t) :
    (parse_precision fmt args d).2.2.length ≤ fmt.length := by
  cases fmt with
  | nil => simp [parse_precision]
  | cons c rest =>
    by_cases h : c = '.'
    · cases rest with
      | nil => simp [parse_precision, h]
      | cons c2 rest2 =>
        by_cases h2 : is_digit c2
        · have := atoi_loop_length 0 (c2 :: rest2)
          simp [parse_precision, h, h2, atoi] at this ⊢
          omega
        · by_cases h3 : c2 = '*' <;>
            first
            | (simp +decide [parse_precision, h, h2, h3]; omega)
            | simp +decide [parse_precision, h, h2, h3]
    · simp [parse_precision, h]

theorem parse_length_length (fmt : List Char) (d : data_t) :
    (parse_length fmt d).2.length ≤ fmt.length := by
  cases fmt with
  | nil => simp [parse_length]
  | cons c rest =>
    simp only [parse_length]
    split_ifs <;> cases rest <;> simp_all <;> split <;> simp_all <;> omega

theorem eval_directive_length (fmt : List Char) (args : List arg_t) (d : data_t) :
    (eval_directive fmt args d).2.2.length ≤ fmt.length := by
  simp only [eval_directive]
  set rF := parse_flags fmt flagsNone with hF
  set rW := parse_width rF.2 args { d with flags := rF.1 } with hW
  set rP := parse_precision rW.2.2 rW.2.1 rW.1 with hP
  set rL := parse_length rP.2.2 rP.1 with hL
  have h1 : rF.2.length ≤ fmt.length := parse_flags_length _ _
  have h2 : rW.2.2.length ≤ rF.2.length := parse_width_length _ _ _
  have h3 : rP.2.2.length ≤ rW.2.2.length := parse_precision_length _ _ _
  have h4 : rL.2.length ≤ rP.2.2.length := parse_length_length _ _
  cases hc : rL.2 with
  | nil => simp [hc]
  | cons c rest =>
    rw [hc] at h4
    simp only [hc]
    simp at h4 ⊢
    omega

def format_out_loop (fmt : List Char) (args : List arg_t) (d : data_t) : data_t :=
  match _h : fmt with
  | [] => d
  | c :: rest =>
    if c ≠ '%' then format_out_loop rest args (do_out d c)
    else
      let r := eval_directive rest args d
      format_out_loop r.2.2 r.2.1 r.1
termination_by fmt.length
decreasing_by
  · simp
  · have := eval_directive_length rest args d
    simp
    omega

/-- `format_out` with a fresh `data_t` (`data.idx = 0`; `data.flags`,
`data.width`, `data.precision`, `data.base`, `data.digit_count` are assigned
per directive before use, and start out zeroed here).  The result carries both
the emitted character sequence and the returned count `data.idx`. -/
def format_out (fmt : List Char) (args : List arg_t) : data_t :=
  format_out_loop fmt args
    { flags := flagsNone, idx := 0, width := 0, precision := 0,
      base := BASE_DECIMAL, digit_count := 0, emitted := [] }

/-! ## Output sinks and public entry points -/

/-- The bounded-buffer sink state (`sprintf_data_t`): `buffer` is the list of
bytes stored so far (the pointer advance), `maxlen` the remaining capacity. -/
structure sprintf_data_t where
  buffer : List Char
  maxlen : Nat
deriving DecidableEq, Repr

/-- `static void out_sprintf(char character, void* ptr)`:
`if (data->maxlen > 0 && data->buffer != NULL) { *data->buffer++ = character; data->maxlen--; }`
(the buffer is modelled as present/non-NULL). -/
def out_sprintf (st : sprintf_data_t) (c : Char) : sprintf_data_t :=
  if 0 < st.maxlen then { buffer := st.buffer ++ [c], maxlen := st.maxlen - 1 } else st

/-- Feeding every interpreter-emitted character to `out_sprintf`, starting
from a fresh buffer with capacity `count`. -/
def sprintf_run (count : Nat) (cs : List Char) : sprintf_data_t :=
  cs.foldl out_sprintf { buffer := [], maxlen := count }

/-- The final buffer contents of `snprintf_`/`vsnprintf_` with capacity
`count`: after the interpreter runs, `if (buffer != NULL && count > 0)
data.buffer[data.maxlen ? 0 : -1] = 0;` — append the terminator if capacity
remains, overwrite the last stored byte if it was exhausted, and write nothing
at all (not even a terminator) if the capacity is zero. -/
def snprintf_buffer (count : Nat) (cs : List Char) : List Char :=
  let st := sprintf_run count cs
  if 0 < count then
    if st.maxlen ≠ 0 then st.buffer ++ [nulChar]
    else st.buffer.dropLast ++ [nulChar]
  else st.buffer

/-- `int snprintf_(char* buffer, size_t count, const char* format, ...)`:
the returned count and the bytes stored in the caller's buffer. -/
def snprintf_ (count : Nat) (fmt : List Char) (args : List arg_t) : Nat × List Char :=
  ((format_out fmt args).idx, snprintf_buffer count (format_out fmt args).emitted)

/-- `static inline void out_char(char character, void* ptr)`:
`if (character) { _putchar(character); }` — the characters this sink forwards
to the external `_putchar` primitive for one input character. -/
def out_char (c : Char) : List Char :=
  if c.toNat ≠ 0 then [c] else []

/-- The stream of characters `printf_`/`vprintf_` hand to `_putchar`:
every interpreter-emitted character run through the device sink in order. -/
def printf_device (fmt : List Char) (args : List arg_t) : List Char :=
  (format_out fmt args).emitted.foldr (fun c acc => out_char c ++ acc) []

/-! ## Memory-faithful scanner

`format_out` in C walks a raw `const char*`: nothing stops it from reading
past the terminating null (the `default:` specifier branch consumes whatever
character sits at the cursor — even the terminator — and steps past it).
To reason about which memory positions the scan visits, the same scanner is
transcribed over an arbitrary memory `mem : Nat → Char` with the cursor as a
position.  Loops carry explicit fuel (one unit per character processed) since
over arbitrary memory the C loop need not terminate; with enough fuel the run
is exact.  The directive body below mirrors `format_out` exactly; the
rendering helpers (`conv_spec` etc.) read no format characters and are shared
with the list model. -/

/-- The flags loop over memory. -/
def mem_flags : Nat → (Nat → Char) → Nat → Flags → Flags × Nat
  | 0, _, pos, f => (f, pos)
  | fuel + 1, mem, pos, f =>
    if mem pos = '0' then mem_flags fuel mem (pos + 1) { f with zeropad := true }
    else if mem pos = '-' then mem_flags fuel mem (pos + 1) { f with left := true }
    else if mem pos = '+' then mem_flags fuel mem (pos + 1) { f with plus := true }
    else if mem pos = ' ' then mem_flags fuel mem (pos + 1) { f with space := true }
    else if mem pos = '#' then mem_flags fuel mem (pos + 1) { f with hash := true }
    else (f, pos)

/-- The `atoi` loop over memory. -/
def mem_atoi : Nat → (Nat → Char) → Nat → Nat → Nat × Nat
  | 0, _, pos, i => (i, pos)
  | fuel + 1, mem, pos, i =>
    if is_digit (mem pos) then
      mem_atoi fuel mem (pos + 1) ((i * 10 + ((mem pos).toNat - 48)) % 2 ^ 32)
    else (i, pos)

/-- The width field over memory. -/
def mem_width (fuel : Nat) (mem : Nat → Char) (pos : Nat) (args : List arg_t)
    (d : data_t) : data_t × List arg_t × Nat :=
  let d := { d with width := 0 }
  if is_digit (mem pos) then
    let r := mem_atoi fuel mem pos 0
    ({ d with width := r.1 % 256 }, args, r.2)
  else if mem pos = '*' then
    let r := va_arg_int args
    if r.1 < 0 then
      ({ d with flags := { d.flags with left := true },
                width := ((-r.1) % 2 ^ 32).toNat % 256 }, r.2, pos + 1)
    else
      ({ d with width := (r.1 % 2 ^ 32).toNat % 256 }, r.2, pos + 1)
  else (d, args, pos)

/-- The precision field over memory. -/
def mem_precision (fuel : Nat) (mem : Nat → Char) (pos : Nat) (args : List arg_t)
    (d : data_t) : data_t × List arg_t × Nat :=
  let d := { d with precision := 0 }
  if mem pos = '.' then
    let d := { d with flags := { d.flags with precision := true } }
    if is_digit (mem (pos + 1)) then
      let r := mem_atoi fuel mem (pos + 1) 0
      ({ d with precision := r.1 % 256 }, args, r.2)
    else if mem (pos + 1) = '*' then
      let r := va_arg_int args
      ({ d with precision := (if r.1 > 0 then (r.1 % 2 ^ 32).toNat else 0) % 256 }, r.2, pos + 2)
    else (d, args, pos + 1)
  else (d, args, pos)

/-- The length field over memory. -/
def mem_length (mem : Nat → Char) (pos : Nat) (d : data_t) : data_t × Nat :=
  if mem pos = 'l' then
    let d := { d with flags := { d.flags with long := true } }
    if mem (pos + 1) = 'l' then
      ({ d with flags := { d.flags with longLong := true } }, pos + 2)
    else (d, pos + 1)
  else if mem pos = 'h' then
    let d := { d with flags := { d.flags with short := true } }
    if mem (pos + 1) = 'h' then
      ({ d with flags := { d.flags with char := true } }, pos + 2)
    else (d, pos + 1)
  else if mem pos = 't' then ({ d with flags := { d.flags with long := true } }, pos + 1)
  else if mem pos = 'j' then ({ d with flags := { d.flags with longLong := true } }, pos + 1)
  else if mem pos = 'z' then ({ d with flags := { d.flags with long := true } }, pos + 1)
  else (d, pos)

/-- One full `%` directive over memory; the specifier switch consumes exactly
one character, whatever it is (`format++` in every branch, including
`default:`), so the cursor always advances past the specifier position. -/
def mem_directive (fuel : Nat) (mem : Nat → Char) (pos : Nat) (args : List arg_t)
    (d : data_t) : data_t × List arg_t × Nat :=
  let rF := mem_flags fuel mem pos flagsNone
  let d := { d with flags := rF.1 }
  let rW := mem_width fuel mem rF.2 args d
  let rP := mem_precision fuel mem rW.2.2 rW.2.1 rW.1
  let rL := mem_length mem rP.2.2 rP.1
  let rC := conv_spec (mem rL.2) rP.2.1 rL.1
  (rC.1, rC.2, rL.2 + 1)

/-- The top interpretation loop over memory: the literal copy and the return
on `*format == 0`, with the cursor position returned alongside the state. -/
def mem_format_out : Nat → (Nat → Char) → Nat → List arg_t → data_t → data_t × Nat
  | 0, _, pos, _, d => (d, pos)
  | fuel + 1, mem, pos, args, d =>
    if mem pos = nulChar then (d, pos)
    else if mem pos ≠ '%' then mem_format_out fuel mem (pos + 1) args (do_out d (mem pos))
    else
      let r := mem_directive fuel mem (pos + 1) args d
      mem_format_out fuel mem r.2.2 r.2.1 r.1

/-- A memory holding the format string `"%"`: `'%'` at 0, the terminating
null at 1 — and a nonzero byte `'A'` at position 2, i.e. beyond the string. -/
def mem_pct_junk : Nat → Char :=
  fun i => if i = 0 then '%' else if i = 2 then 'A' else nulChar

/-- The same memory except that the byte beyond the terminator is null. -/
def mem_pct_clean : Nat → Char :=
  fun i => if i = 0 then '%' else nulChar

/-! ## Closed forms for the emission loops -/

/-- The characters the decimal loop of `ntoa_long` emits for `digit_count = n`. -/
def dec_chars_long : Nat → Nat → List Char
  | 0, _ => []
  | n + 1, v =>
    Char.ofNat ((v / pow10_long.getD n 1 % 256 + 48) % 256) ::
      dec_chars_long n (v % pow10_long.getD n 1)

/-- The characters the decimal loop of `ntoa_long_long` emits. -/
def dec_chars_long_long : Nat → Nat → List Char
  | 0, _ => []
  | n + 1, v =>
    Char.ofNat ((v / pow10_long_long.getD n 1 % 256 + 48) % 256) ::
      dec_chars_long_long n (v % pow10_long_long.getD n 1)

/-- The characters the power-of-two-base loop emits for `digit_count = n`. -/
def base_chars (bits mask : Nat) (uppercase : Bool) (value : Nat) : Nat → List Char
  | 0 => []
  | n + 1 =>
    base_digit_char ((value >>> (n * bits)) &&& mask) uppercase ::
      base_chars bits mask uppercase value n

theorem ntoa_pad_spaces_eq (n : Nat) (d : data_t) :
    ntoa_pad_spaces n d =
      { d with emitted := d.emitted ++ List.replicate n ' ',
               idx := if n = 0 then d.idx else (d.idx + n) % 256,
               width := if n = 0 then d.width else 0 } := by
  induction n generalizing d with
  | zero => simp [ntoa_pad_spaces]
  | succ n ih =>
    obtain ⟨fl, ix, w, pr, b, dc, em⟩ := d
    simp [ntoa_pad_spaces, do_out, ih, List.replicate_succ]
    split_ifs <;> omega

theorem ntoa_prec_zeros_eq (n : Nat) (d : data_t) :
    ntoa_prec_zeros n d =
      { d with emitted := d.emitted ++ List.replicate n '0',
               idx := if n = 0 then d.idx else (d.idx + n) % 256,
               precision := if n = 0 then d.precision else 0 } := by
  induction n generalizing d with
  | zero => simp [ntoa_prec_zeros]
  | succ n ih =>
    obtain ⟨fl, ix, w, pr, b, dc, em⟩ := d
    simp [ntoa_prec_zeros, do_out, ih, List.replicate_succ]
    split_ifs <;> omega

theorem ntoa_width_zeros_eq (n : Nat) (d : data_t) :
    ntoa_width_zeros n d =
      if d.flags.zeropad then
        { d with emitted := d.emitted ++ List.replicate n '0',
                 idx := if n = 0 then d.idx else (d.idx + n) % 256,
                 width := if n = 0 then d.width else 0 }
      else d := by
  induction n generalizing d with
  | zero => simp [ntoa_width_zeros]
  | succ n ih =>
    obtain ⟨fl, ix, w, pr, b, dc, em⟩ := d
    by_cases hz : fl.zeropad
    · simp [ntoa_width_zeros, do_out, hz, ih, List.replicate_succ]
      split_ifs <;> omega
    · simp [ntoa_width_zeros, hz]

theorem ntoa_trail_spaces_eq (n : Nat) (d : data_t) :
    ntoa_trail_spaces n d =
      { d with emitted := d.emitted ++ List.replicate n ' ',
               width := if n = 0 then d.width else 0 } := by
  induction n generalizing d with
  | zero => simp [ntoa_trail_spaces]
  | succ n ih =>
    obtain ⟨fl, ix, w, pr, b, dc, em⟩ := d
    simp [ntoa_trail_spaces, ih, List.replicate_succ]

theorem ntoa_dec_long_eq (n v : Nat) (d : data_t) :
    ntoa_dec_long n v d =
      { d with emitted := d.emitted ++ dec_chars_long n v,
               idx := if n = 0 then d.idx else (d.idx + n) % 256,
               digit_count := if n = 0 then d.digit_count else 0 } := by
  induction n generalizing v d with
  | zero => simp [ntoa_dec_long, dec_chars_long]
  | succ n ih =>
    obtain ⟨fl, ix, w, pr, b, dc, em⟩ := d
    simp [ntoa_dec_long, do_out, ih, dec_chars_long]
    split_ifs <;> omega

theorem ntoa_dec_long_long_eq (n v : Nat) (d : data_t) :
    ntoa_dec_long_long n v d =
      { d with emitted := d.emitted ++ dec_chars_long_long n v,
               idx := if n = 0 then d.idx else (d.idx + n) % 256,
               digit_count := if n = 0 then d.digit_count else 0 } := by
  induction n generalizing v d with
  | zero => simp [ntoa_dec_long_long, dec_chars_long_long]
  | succ n ih =>
    obtain ⟨fl, ix, w, pr, b, dc, em⟩ := d
    simp [ntoa_dec_long_long, do_out, ih, dec_chars_long_long]
    split_ifs <;> omega

theorem ntoa_base_loop_eq (bits mask : Nat) (u : Bool) (v n : Nat) (d : data_t) :
    ntoa_base_loop bits mask u v n d =
      { d with emitted := d.emitted ++ base_chars bits mask u v n,
               idx := if n = 0 then d.idx else (d.idx + n) % 256,
               digit_count := if n = 0 then d.digit_count else 0 } := by
  induction n generalizing d with
  | zero => simp [ntoa_base_loop, base_chars]
  | succ n ih =>
    obtain ⟨fl, ix, w, pr, b, dc, em⟩ := d
    simp [ntoa_base_loop, do_out, ih, base_chars]
    split_ifs <;> omega

/-! ## Characterization of the field layout engine

`reduced_width`/`reduced_prec` and the `layout_*` lists below spell out, as
closed formulas, the spec's description of the layout engine (§4.4 steps 1-9):
width/precision reduction, then left-padding spaces, sign, radix marker,
precision zeros, and zero-pad zeros, in that exact order. -/

/-- Field width after reduction by digit count, sign column, precision
columns and alternate-form columns (spec §4.4 steps 1-5). -/
def reduced_width (d : data_t) : Nat :=
  let w1 := d.width - d.digit_count
  let w2 := if 0 < w1 ∧ (d.flags.negative ∨ d.flags.plus ∨ d.flags.space) then w1 - 1 else w1
  let w3 := if d.flags.precision then w2 - (d.precision - d.digit_count) else w2
  if d.flags.hash then
    if d.base = BASE_HEX ∨ d.base = BASE_BINARY then w3 - 2
    else if 0 < w3 then w3 - 1 else w3
  else w3

/-- Precision after reduction by digit count (the leading-zero count). -/
def reduced_prec (d : data_t) : Nat := d.precision - d.digit_count

/-- Left-padding spaces: only for right-justified, not zero-padded output. -/
def layout_spaces (d : data_t) : List Char :=
  if ¬ d.flags.left ∧ ¬ d.flags.zeropad then List.replicate (reduced_width d) ' ' else []

/-- The sign character: `-` for negative, else `+` if force-sign, else a
space if space-sign. -/
def layout_sign (d : data_t) : List Char :=
  if d.flags.negative then ['-']
  else if d.flags.plus then ['+']
  else if d.flags.space then [' ']
  else []

/-- The alternate-form marker: `0`, then `x`/`X` for hex or `b` for binary. -/
def layout_radix (d : data_t) : List Char :=
  if d.flags.hash then
    '0' :: (if d.base = BASE_HEX ∧ ¬ d.flags.uppercase then ['x']
            else if d.base = BASE_HEX ∧ d.flags.uppercase then ['X']
            else if d.base = BASE_BINARY then ['b']
            else [])
  else []

/-- Leading precision zeros (right-justified only). -/
def layout_prec_zeros (d : data_t) : List Char :=
  if ¬ d.flags.left then List.replicate (reduced_prec d) '0' else []

/-- Leading zero-pad zeros (right-justified, zero-pad flag only). -/
def layout_width_zeros (d : data_t) : List Char :=
  if ¬ d.flags.left ∧ d.flags.zeropad then List.replicate (reduced_width d) '0' else []

theorem nf_steps_eq (d : data_t) :
    nf_step_hash_width (nf_step_prec_width (nf_step_sign_width (nf_step_reduce d))) =
      { d with width := reduced_width d, precision := reduced_prec d } := by
  obtain ⟨fl, ix, w, pr, b, dc, em⟩ := d
  simp only [nf_step_reduce, nf_step_sign_width, nf_step_prec_width, nf_step_hash_width,
    reduced_width, reduced_prec]
  split_ifs <;> simp_all

theorem do_out_flags (d : data_t) (c : Char) : (do_out d c).flags = d.flags := rfl

theorem do_out_base (d : data_t) (c : Char) : (do_out d c).base = d.base := rfl

theorem do_out_width (d : data_t) (c : Char) : (do_out d c).width = d.width := rfl

theorem do_out_precision (d : data_t) (c : Char) : (do_out d c).precision = d.precision := rfl

theorem do_out_digit_count (d : data_t) (c : Char) : (do_out d c).digit_count = d.digit_count :=
  rfl

theorem do_out_emitted (d : data_t) (c : Char) : (do_out d c).emitted = d.emitted ++ [c] := rfl

theorem nf_emit_spaces_flags (d : data_t) : (nf_emit_spaces d).flags = d.flags := by
  simp only [nf_emit_spaces, ntoa_pad_spaces_eq]
  split_ifs <;> rfl

theorem nf_emit_spaces_base (d : data_t) : (nf_emit_spaces d).base = d.base := by
  simp only [nf_emit_spaces, ntoa_pad_spaces_eq]
  split_ifs <;> rfl

theorem nf_emit_spaces_digit_count (d : data_t) :
    (nf_emit_spaces d).digit_count = d.digit_count := by
  simp only [nf_emit_spaces, ntoa_pad_spaces_eq]
  split_ifs <;> rfl

theorem nf_emit_spaces_precision (d : data_t) :
    (nf_emit_spaces d).precision = d.precision := by
  simp only [nf_emit_spaces, ntoa_pad_spaces_eq]
  split_ifs <;> rfl

theorem nf_emit_spaces_width (d : data_t) :
    (nf_emit_spaces d).width =
      if ¬ d.flags.left ∧ ¬ d.flags.zeropad then 0 else d.width := by
  simp only [nf_emit_spaces, ntoa_pad_spaces_eq]
  split_ifs <;> simp_all

theorem nf_emit_spaces_emitted (d : data_t) :
    (nf_emit_spaces d).emitted =
      d.emitted ++
        (if ¬ d.flags.left ∧ ¬ d.flags.zeropad then List.replicate d.width ' ' else []) := by
  simp only [nf_emit_spaces, ntoa_pad_spaces_eq]
  split_ifs <;> simp

theorem nf_emit_sign_flags (d : data_t) : (nf_emit_sign d).flags = d.flags := by
  simp only [nf_emit_sign]
  split_ifs <;> rfl

theorem nf_emit_sign_base (d : data_t) : (nf_emit_sign d).base = d.base := by
  simp only [nf_emit_sign]
  split_ifs <;> rfl

theorem nf_emit_sign_digit_count (d : data_t) :
    (nf_emit_sign d).digit_count = d.digit_count := by
  simp only [nf_emit_sign]
  split_ifs <;> rfl

theorem nf_emit_sign_precision (d : data_t) : (nf_emit_sign d).precision = d.precision := by
  simp only [nf_emit_sign]
  split_ifs <;> rfl

theorem nf_emit_sign_width (d : data_t) : (nf_emit_sign d).width = d.width := by
  simp only [nf_emit_sign]
  split_ifs <;> rfl

theorem nf_emit_sign_emitted (d : data_t) :
    (nf_emit_sign d).emitted =
      d.emitted ++
        (if d.flags.negative then ['-']
         else if d.flags.plus then ['+']
         else if d.flags.space then [' ']
         else []) := by
  simp only [nf_emit_sign]
  split_ifs <;> simp [do_out]

theorem nf_emit_radix_flags (d : data_t) : (nf_emit_radix d).flags = d.flags := by
  simp only [nf_emit_radix]
  split_ifs <;> rfl

theorem nf_emit_radix_base (d : data_t) : (nf_emit_radix d).base = d.base := by
  simp only [nf_emit_radix]
  split_ifs <;> rfl

theorem nf_emit_radix_digit_count (d : data_t) :
    (nf_emit_radix d).digit_count = d.digit_count := by
  simp only [nf_emit_radix]
  split_ifs <;> rfl

theorem nf_emit_radix_precision (d : data_t) : (nf_emit_radix d).precision = d.precision := by
  simp only [nf_emit_radix]
  split_ifs <;> rfl

theorem nf_emit_radix_width (d : data_t) : (nf_emit_radix d).width = d.width := by
  simp only [nf_emit_radix]
  split_ifs <;> rfl

theorem nf_emit_radix_emitted (d : data_t) :
    (nf_emit_radix d).emitted =
      d.emitted ++
        (if d.flags.hash then
           '0' :: (if d.base = BASE_HEX ∧ ¬ d.flags.uppercase then ['x']
                   else if d.base = BASE_HEX ∧ d.flags.uppercase then ['X']
                   else if d.base = BASE_BINARY then ['b']
                   else [])
         else []) := by
  simp only [nf_emit_radix, do_out_base, do_out_flags]
  split_ifs <;> simp [do_out]

theorem nf_emit_zeros_flags (d : data_t) : (nf_emit_zeros d).flags = d.flags := by
  simp only [nf_emit_zeros, ntoa_prec_zeros_eq, ntoa_width_zeros_eq]
  split_ifs <;> rfl

theorem nf_emit_zeros_base (d : data_t) : (nf_emit_zeros d).base = d.base := by
  simp only [nf_emit_zeros, ntoa_prec_zeros_eq, ntoa_width_zeros_eq]
  split_ifs <;> rfl

theorem nf_emit_zeros_digit_count (d : data_t) :
    (nf_emit_zeros d).digit_count = d.digit_count := by
  simp only [nf_emit_zeros, ntoa_prec_zeros_eq, ntoa_width_zeros_eq]
  split_ifs <;> rfl

theorem nf_emit_zeros_width (d : data_t) :
    (nf_emit_zeros d).width =
      if ¬ d.flags.left ∧ d.flags.zeropad then 0 else d.width := by
  simp only [nf_emit_zeros, ntoa_prec_zeros_eq, ntoa_width_zeros_eq]
  split_ifs <;> simp_all

theorem nf_emit_zeros_precision (d : data_t) :
    (nf_emit_zeros d).precision = if ¬ d.flags.left then 0 else d.precision := by
  simp only [nf_emit_zeros, ntoa_prec_zeros_eq, ntoa_width_zeros_eq]
  split_ifs <;> simp_all

theorem nf_emit_zeros_emitted (d : data_t) :
    (nf_emit_zeros d).emitted =
      d.emitted ++
        (if ¬ d.flags.left then List.replicate d.precision '0' else []) ++
        (if ¬ d.flags.left ∧ d.flags.zeropad then List.replicate d.width '0' else []) := by
  simp only [nf_emit_zeros, ntoa_prec_zeros_eq, ntoa_width_zeros_eq]
  split_ifs <;> simp_all

theorem ntoa_format_flags (d : data_t) : (ntoa_format d).flags = d.flags := by
  simp [ntoa_format, nf_emit_zeros_flags, nf_emit_radix_flags, nf_emit_sign_flags,
    nf_emit_spaces_flags, nf_steps_eq]

theorem ntoa_format_base (d : data_t) : (ntoa_format d).base = d.base := by
  simp [ntoa_format, nf_emit_zeros_base, nf_emit_radix_base, nf_emit_sign_base,
    nf_emit_spaces_base, nf_steps_eq]

theorem ntoa_format_digit_count (d : data_t) : (ntoa_format d).digit_count = d.digit_count := by
  simp [ntoa_format, nf_emit_zeros_digit_count, nf_emit_radix_digit_count,
    nf_emit_sign_digit_count, nf_emit_spaces_digit_count, nf_steps_eq]

theorem ntoa_format_width (d : data_t) :
    (ntoa_format d).width = if d.flags.left then reduced_width d else 0 := by
  simp only [ntoa_format, nf_emit_zeros_width, nf_emit_radix_width, nf_emit_sign_width,
    nf_emit_radix_flags, nf_emit_sign_flags, nf_emit_spaces_flags, nf_emit_spaces_width,
    nf_steps_eq]
  split_ifs <;> simp_all

theorem ntoa_format_precision (d : data_t) :
    (ntoa_format d).precision = if d.flags.left then reduced_prec d else 0 := by
  simp only [ntoa_format, nf_emit_zeros_precision, nf_emit_radix_precision,
    nf_emit_sign_precision, nf_emit_spaces_precision, nf_emit_radix_flags, nf_emit_sign_flags,
    nf_emit_spaces_flags, nf_steps_eq]
  split_ifs <;> simp_all

theorem ntoa_format_emitted (d : data_t) :
    (ntoa_format d).emitted =
      d.emitted ++ layout_spaces d ++ layout_sign d ++ layout_radix d ++
        layout_prec_zeros d ++ layout_width_zeros d := by
  simp only [ntoa_format, nf_steps_eq, nf_emit_zeros_emitted, nf_emit_radix_emitted,
    nf_emit_sign_emitted, nf_emit_spaces_emitted, nf_emit_radix_flags, nf_emit_sign_flags,
    nf_emit_spaces_flags, nf_emit_radix_base, nf_emit_sign_base, nf_emit_spaces_base,
    nf_emit_radix_width, nf_emit_sign_width, nf_emit_spaces_width,
    nf_emit_radix_precision, nf_emit_sign_precision, nf_emit_spaces_precision,
    layout_spaces, layout_sign, layout_radix, layout_prec_zeros, layout_width_zeros]
  simp only [List.append_assoc]
  split_ifs <;> simp_all [reduced_prec]

/-- The digit characters `ntoa_long` emits (before any trailing padding):
nothing when precision is present and the value is zero; a single `'0'` for a
zero value; otherwise `digit_count` digits of the current base. -/
def ntoa_digits_long (d : data_t) (value : Nat) : List Char :=
  if ¬ d.flags.precision ∨ value ≠ 0 then
    if value = 0 then ['0']
    else if d.base = BASE_DECIMAL then dec_chars_long d.digit_count value
    else base_chars (base_bits d.base) (base_mask d.base) d.flags.uppercase value d.digit_count
  else []

/-- Likewise for `ntoa_long_long`. -/
def ntoa_digits_long_long (d : data_t) (value : Nat) : List Char :=
  if ¬ d.flags.precision ∨ value ≠ 0 then
    if value = 0 then ['0']
    else if d.base = BASE_DECIMAL then dec_chars_long_long d.digit_count value
    else base_chars (base_bits d.base) (base_mask d.base) d.flags.uppercase value d.digit_count
  else []

theorem ntoa_long_emitted (d : data_t) (value : Nat) :
    (ntoa_long d value).emitted =
      d.emitted ++ ntoa_digits_long d value ++
        (if d.flags.left then List.replicate d.width ' ' else []) := by
  simp only [ntoa_long, ntoa_digits_long]
  split_ifs <;>
    simp_all [ntoa_dec_long_eq, ntoa_base_loop_eq, ntoa_trail_spaces_eq, do_out]

theorem ntoa_long_long_emitted (d : data_t) (value : Nat) :
    (ntoa_long_long d value).emitted =
      d.emitted ++ ntoa_digits_long_long d value ++
        (if d.flags.left then List.replicate d.width ' ' else []) := by
  simp only [ntoa_long_long, ntoa_digits_long_long]
  split_ifs <;>
    simp_all [ntoa_dec_long_long_eq, ntoa_base_loop_eq, ntoa_trail_spaces_eq, do_out]

/-! ## Decimal round-trip machinery -/

/-- Parsing digit characters back to a Nat, most significant first
(the inverse reading used to state the rendering round-trip). -/
def parse_dec_fold (a : Nat) (cs : List Char) : Nat :=
  cs.foldl (fun x c => 10 * x + (c.toNat - 48)) a

/-- Parse a digit string as a decimal natural number. -/
def parse_dec_nat (cs : List Char) : Nat := parse_dec_fold 0 cs

/-- Parse a rendered integer: a leading `'-'` negates the decimal value of
the remaining digits. -/
def parseSigned (cs : List Char) : Int :=
  if cs.head? = some '-' then -(parse_dec_nat cs.tail : Int) else (parse_dec_nat cs : Int)

theorem pow10_long_getD : ∀ n, n < 10 → pow10_long.getD n 1 = 10 ^ n := by decide

theorem pow10_long_long_getD : ∀ n, n < 20 → pow10_long_long.getD n 1 = 10 ^ n := by decide

theorem char_toNat_ofNat_small : ∀ m, m < 128 → (Char.ofNat m).toNat = m := by decide

theorem get_digits_dec_long_le (v : Nat) : get_digits_dec v pow10_long ≤ 10 := by
  simp only [pow10_long, get_digits_dec]
  split_ifs <;> omega

theorem get_digits_dec_long_lt (v : Nat) (h : v < 2 ^ 32) :
    v < 10 ^ get_digits_dec v pow10_long := by
  simp only [pow10_long, get_digits_dec]
  split_ifs <;> norm_num <;> omega

theorem get_digits_dec_long_pos (v : Nat) (h : 0 < v) : 0 < get_digits_dec v pow10_long := by
  simp only [pow10_long, get_digits_dec]
  split_ifs <;> omega

theorem get_digits_dec_le (v : Nat) (l : List Nat) : get_digits_dec v l ≤ l.length := by
  induction l with
  | nil => simp [get_digits_dec]
  | cons p ps ih =>
    simp only [get_digits_dec, List.length_cons]
    split_ifs <;> omega

theorem get_digits_dec_lt_pow (l : List Nat) (e : Nat)
    (htbl : ∀ i, i < l.length → l.getD i 0 = 10 ^ (e + i)) :
    ∀ v, v < 10 ^ (e + l.length) → v < 10 ^ (e + get_digits_dec v l) := by
  induction l generalizing e with
  | nil => intro v hv; simpa [get_digits_dec] using hv
  | cons p ps ih =>
    intro v hv
    have hp : p = 10 ^ e := by simpa using htbl 0 (by simp)
    simp only [get_digits_dec]
    split_ifs with h
    · have htbl2 : ∀ i, i < ps.length → ps.getD i 0 = 10 ^ (e + 1 + i) := by
        intro i hi
        have := htbl (i + 1) (by simp; omega)
        simpa [Nat.add_assoc, Nat.add_comm 1 i] using this
      have := ih (e + 1) htbl2 v (by
        have : e + 1 + ps.length = e + (ps.length + 1) := by omega
        rw [this]
        simpa using hv)
      have harr : e + (1 + get_digits_dec v ps) = e + 1 + get_digits_dec v ps := by omega
      rw [harr]
      exact this
    · have hve : v < 10 ^ e := by omega
      simpa using hve

theorem get_digits_dec_pos (v : Nat) (p : Nat) (ps : List Nat) (h : p ≤ v) :
    0 < get_digits_dec v (p :: ps) := by
  simp only [get_digits_dec]
  split_ifs <;> omega

theorem get_digits_long_dec_le (v : Nat) : get_digits_long v BASE_DECIMAL ≤ 10 :=
  get_digits_dec_le v pow10_long

theorem get_digits_long_dec_lt (v : Nat) (h : v < 2 ^ 32) :
    v < 10 ^ get_digits_long v BASE_DECIMAL := by
  have := get_digits_dec_lt_pow pow10_long 0 (by decide) v
    (by simp [pow10_long]; omega)
  simpa [get_digits_long] using this

theorem get_digits_long_dec_pos (v : Nat) (h : 0 < v) :
    0 < get_digits_long v BASE_DECIMAL := by
  simp only [get_digits_long, pow10_long]
  exact get_digits_dec_pos v 1 _ h

theorem get_digits_long_long_dec_le (v : Nat) : get_digits_long_long v BASE_DECIMAL ≤ 20 :=
  get_digits_dec_le v pow10_long_long

theorem get_digits_long_long_dec_lt (v : Nat) (h : v < 2 ^ 64) :
    v < 10 ^ get_digits_long_long v BASE_DECIMAL := by
  have := get_digits_dec_lt_pow pow10_long_long 0 (by decide) v
    (by simp [pow10_long_long]; omega)
  simpa [get_digits_long_long] using this

theorem get_digits_long_long_dec_pos (v : Nat) (h : 0 < v) :
    0 < get_digits_long_long v BASE_DECIMAL := by
  simp only [get_digits_long_long, pow10_long_long]
  exact get_digits_dec_pos v 1 _ h

theorem dec_chars_long_length (n v : Nat) : (dec_chars_long n v).length = n := by
  induction n generalizing v with
  | zero => simp [dec_chars_long]
  | succ n ih => simp [dec_chars_long, ih]

theorem dec_chars_long_long_length (n v : Nat) : (dec_chars_long_long n v).length = n := by
  induction n generalizing v with
  | zero => simp [dec_chars_long_long]
  | succ n ih => simp [dec_chars_long_long, ih]

theorem base_chars_length (bits mask : Nat) (u : Bool) (v n : Nat) :
    (base_chars bits mask u v n).length = n := by
  induction n with
  | zero => simp [base_chars]
  | succ n ih => simp [base_chars, ih]

theorem parse_dec_fold_long (n : Nat) (hn : n ≤ 10) :
    ∀ v a, v < 10 ^ n → parse_dec_fold a (dec_chars_long n v) = a * 10 ^ n + v := by
  induction n with
  | zero =>
    intro v a hv
    simp [dec_chars_long, parse_dec_fold]
    omega
  | succ n ih =>
    intro v a hv
    have hp : pow10_long.getD n 1 = 10 ^ n := pow10_long_getD n (by omega)
    have hpow : (10 : Nat) ^ (n + 1) = 10 * 10 ^ n := by ring
    have hpos : 0 < (10 : Nat) ^ n := pow_pos (by norm_num) n
    have hd : v / 10 ^ n < 10 := (Nat.div_lt_iff_lt_mul hpos).mpr (by omega)
    have hmod : v / 10 ^ n % 256 = v / 10 ^ n := Nat.mod_eq_of_lt (by omega)
    have hmod2 : (v / 10 ^ n + 48) % 256 = v / 10 ^ n + 48 := Nat.mod_eq_of_lt (by omega)
    have hc : (Char.ofNat (v / 10 ^ n + 48)).toNat = v / 10 ^ n + 48 :=
      char_toNat_ofNat_small _ (by omega)
    have h48 : v / 10 ^ n + 48 - 48 = v / 10 ^ n := by omega
    have hrec := ih (by omega) (v % 10 ^ n) (10 * a + v / 10 ^ n) (Nat.mod_lt _ hpos)
    simp only [dec_chars_long, hp, hmod, hmod2, parse_dec_fold, List.foldl_cons, hc, h48]
    simp only [parse_dec_fold] at hrec
    rw [hrec]
    have hdm := Nat.div_add_mod v (10 ^ n)
    calc (10 * a + v / 10 ^ n) * 10 ^ n + v % 10 ^ n
        = a * 10 ^ (n + 1) + (10 ^ n * (v / 10 ^ n) + v % 10 ^ n) := by ring
      _ = a * 10 ^ (n + 1) + v := by rw [hdm]

theorem parse_dec_fold_long_long (n : Nat) (hn : n ≤ 20) :
    ∀ v a, v < 10 ^ n → parse_dec_fold a (dec_chars_long_long n v) = a * 10 ^ n + v := by
  induction n with
  | zero =>
    intro v a hv
    simp [dec_chars_long_long, parse_dec_fold]
    omega
  | succ n ih =>
    intro v a hv
    have hp : pow10_long_long.getD n 1 = 10 ^ n := pow10_long_long_getD n (by omega)
    have hpow : (10 : Nat) ^ (n + 1) = 10 * 10 ^ n := by ring
    have hpos : 0 < (10 : Nat) ^ n := pow_pos (by norm_num) n
    have hd : v / 10 ^ n < 10 := (Nat.div_lt_iff_lt_mul hpos).mpr (by omega)
    have hmod : v / 10 ^ n % 256 = v / 10 ^ n := Nat.mod_eq_of_lt (by omega)
    have hmod2 : (v / 10 ^ n + 48) % 256 = v / 10 ^ n + 48 := Nat.mod_eq_of_lt (by omega)
    have hc : (Char.ofNat (v / 10 ^ n + 48)).toNat = v / 10 ^ n + 48 :=
      char_toNat_ofNat_small _ (by omega)
    have h48 : v / 10 ^ n + 48 - 48 = v / 10 ^ n := by omega
    have hrec := ih (by omega) (v % 10 ^ n) (10 * a + v / 10 ^ n) (Nat.mod_lt _ hpos)
    simp only [dec_chars_long_long, hp, hmod, hmod2, parse_dec_fold, List.foldl_cons, hc, h48]
    simp only [parse_dec_fold] at hrec
    rw [hrec]
    have hdm := Nat.div_add_mod v (10 ^ n)
    calc (10 * a + v / 10 ^ n) * 10 ^ n + v % 10 ^ n
        = a * 10 ^ (n + 1) + (10 ^ n * (v / 10 ^ n) + v % 10 ^ n) := by ring
      _ = a * 10 ^ (n + 1) + v := by rw [hdm]

theorem ntoa_digits_long_congr (d d' : data_t) (v : Nat) (h1 : d.flags = d'.flags)
    (h2 : d.base = d'.base) (h3 : d.digit_count = d'.digit_count) :
    ntoa_digits_long d v = ntoa_digits_long d' v := by
  simp [ntoa_digits_long, h1, h2, h3]

theorem ntoa_digits_long_long_congr (d d' : data_t) (v : Nat) (h1 : d.flags = d'.flags)
    (h2 : d.base = d'.base) (h3 : d.digit_count = d'.digit_count) :
    ntoa_digits_long_long d v = ntoa_digits_long_long d' v := by
  simp [ntoa_digits_long_long, h1, h2, h3]

/-! ## End-to-end runs of single integer directives -/

theorem run_pct_d (v : Int) (h1 : -(2 ^ 31) ≤ v) (h2 : v < 2 ^ 31) :
    (format_out ['%', 'd'] [arg_t.num v]).emitted =
      (if v < 0 then ['-'] else []) ++
      (if v.natAbs = 0 then ['0']
       else dec_chars_long (get_digits_long v.natAbs BASE_DECIMAL) v.natAbs) := by
  have hx : toInt32 v = v := by unfold toInt32; omega
  have hm : v.natAbs % 4294967296 = v.natAbs := Nat.mod_eq_of_lt (by omega)
  simp +decide [format_out, format_out_loop, eval_directive, parse_flags, parse_width,
    parse_precision, parse_length, conv_spec, conv_int, va_arg_int, is_digit, hx, hm,
    flagsNone, pre_format_long]
  by_cases hv : v < 0 <;>
    simp [hv, ntoa_long_emitted, ntoa_format_emitted, ntoa_format_flags, ntoa_format_width,
      ntoa_format_base, ntoa_format_digit_count, ntoa_format_precision,
      ntoa_digits_long, layout_spaces, layout_sign, layout_radix, layout_prec_zeros,
      layout_width_zeros, reduced_width, reduced_prec]

theorem run_pct_ld (v : Int) (h1 : -(2 ^ 31) ≤ v) (h2 : v < 2 ^ 31) :
    (format_out ['%', 'l', 'd'] [arg_t.num v]).emitted =
      (if v < 0 then ['-'] else []) ++
      (if v.natAbs = 0 then ['0']
       else dec_chars_long (get_digits_long v.natAbs BASE_DECIMAL) v.natAbs) := by
  have hx : toInt32 v = v := by unfold toInt32; omega
  have hm : v.natAbs % 4294967296 = v.natAbs := Nat.mod_eq_of_lt (by omega)
  simp +decide [format_out, format_out_loop, eval_directive, parse_flags, parse_width,
    parse_precision, parse_length, conv_spec, conv_int, va_arg_int, is_digit, hx, hm,
    flagsNone, pre_format_long]
  by_cases hv : v < 0 <;>
    simp [hv, ntoa_long_emitted, ntoa_format_emitted, ntoa_format_flags, ntoa_format_width,
      ntoa_format_base, ntoa_format_digit_count, ntoa_format_precision,
      ntoa_digits_long, layout_spaces, layout_sign, layout_radix, layout_prec_zeros,
      layout_width_zeros, reduced_width, reduced_prec]

theorem run_pct_lld (v : Int) (h1 : -(2 ^ 63) ≤ v) (h2 : v < 2 ^ 63) :
    (format_out ['%', 'l', 'l', 'd'] [arg_t.num v]).emitted =
      (if v < 0 then ['-'] else []) ++
      (if v.natAbs = 0 then ['0']
       else dec_chars_long_long (get_digits_long_long v.natAbs BASE_DECIMAL) v.natAbs) := by
  have hx : toInt64 v = v := by unfold toInt64; omega
  have hm : v.natAbs % 18446744073709551616 = v.natAbs := Nat.mod_eq_of_lt (by omega)
  simp +decide [format_out, format_out_loop, eval_directive, parse_flags, parse_width,
    parse_precision, parse_length, conv_spec, conv_int, va_arg_longlong, is_digit, hx, hm,
    flagsNone, pre_format_long_long]
  by_cases hv : v < 0 <;>
    simp [hv, ntoa_long_long_emitted, ntoa_format_emitted, ntoa_format_flags,
      ntoa_format_width, ntoa_format_base, ntoa_format_digit_count, ntoa_format_precision,
      ntoa_digits_long_long, layout_spaces, layout_sign, layout_radix, layout_prec_zeros,
      layout_width_zeros, reduced_width, reduced_prec]

theorem run_pct_u (v : Int) (h1 : 0 ≤ v) (h2 : v < 2 ^ 32) :
    (format_out ['%', 'u'] [arg_t.num v]).emitted =
      (if v.toNat = 0 then ['0']
       else dec_chars_long (get_digits_long v.toNat BASE_DECIMAL) v.toNat) := by
  have hu : v % 4294967296 = v := by omega
  simp +decide [format_out, format_out_loop, eval_directive, parse_flags, parse_width,
    parse_precision, parse_length, conv_spec, conv_int, va_arg_uint, is_digit, hu,
    flagsNone, pre_format_long]
  simp [ntoa_long_emitted, ntoa_format_emitted, ntoa_format_flags, ntoa_format_width,
    ntoa_format_base, ntoa_format_digit_count, ntoa_format_precision,
    ntoa_digits_long, layout_spaces, layout_sign, layout_radix, layout_prec_zeros,
    layout_width_zeros, reduced_width, reduced_prec]

theorem run_pct_lu (v : Int) (h1 : 0 ≤ v) (h2 : v < 2 ^ 32) :
    (format_out ['%', 'l', 'u'] [arg_t.num v]).emitted =
      (if v.toNat = 0 then ['0']
       else dec_chars_long (get_digits_long v.toNat BASE_DECIMAL) v.toNat) := by
  have hu : v % 4294967296 = v := by omega
  simp +decide [format_out, format_out_loop, eval_directive, parse_flags, parse_width,
    parse_precision, parse_length, conv_spec, conv_int, va_arg_uint, is_digit, hu,
    flagsNone, pre_format_long]
  simp [ntoa_long_emitted, ntoa_format_emitted, ntoa_format_flags, ntoa_format_width,
    ntoa_format_base, ntoa_format_digit_count, ntoa_format_precision,
    ntoa_digits_long, layout_spaces, layout_sign, layout_radix, layout_prec_zeros,
    layout_width_zeros, reduced_width, reduced_prec]

theorem run_pct_llu (v : Int) (h1 : 0 ≤ v) (h2 : v < 2 ^ 64) :
    (format_out ['%', 'l', 'l', 'u'] [arg_t.num v]).emitted =
      (if v.toNat = 0 then ['0']
       else dec_chars_long_long (get_digits_long_long v.toNat BASE_DECIMAL) v.toNat) := by
  have hu : v % 18446744073709551616 = v := by omega
  simp +decide [format_out, format_out_loop, eval_directive, parse_flags, parse_width,
    parse_precision, parse_length, conv_spec, conv_int, va_arg_ulonglong, is_digit, hu,
    flagsNone, pre_format_long_long]
  simp [ntoa_long_long_emitted, ntoa_format_emitted, ntoa_format_flags, ntoa_format_width,
    ntoa_format_base, ntoa_format_digit_count, ntoa_format_precision,
    ntoa_digits_long_long, layout_spaces, layout_sign, layout_radix, layout_prec_zeros,
    layout_width_zeros, reduced_width, reduced_prec]

theorem parse_dec_nat_dec_chars_long (n v : Nat) (hn : n ≤ 10) (hv : v < 10 ^ n) :
    parse_dec_nat (dec_chars_long n v) = v := by
  have := parse_dec_fold_long n hn v 0 hv
  simpa [parse_dec_nat] using this

theorem parse_dec_nat_dec_chars_long_long (n v : Nat) (hn : n ≤ 20) (hv : v < 10 ^ n) :
    parse_dec_nat (dec_chars_long_long n v) = v := by
  have := parse_dec_fold_long_long n hn v 0 hv
  simpa [parse_dec_nat] using this

theorem dec_chars_long_head (n v : Nat) (hn : n + 1 ≤ 10) (hv : v < 10 ^ (n + 1)) :
    (dec_chars_long (n + 1) v).head? = some (Char.ofNat (v / 10 ^ n + 48)) := by
  have hp : pow10_long.getD n 1 = 10 ^ n := pow10_long_getD n (by omega)
  have hpos : 0 < (10 : Nat) ^ n := pow_pos (by norm_num) n
  have hd : v / 10 ^ n < 10 := (Nat.div_lt_iff_lt_mul hpos).mpr (by
    have : (10 : Nat) ^ (n + 1) = 10 * 10 ^ n := by ring
    omega)
  have hmod : v / 10 ^ n % 256 = v / 10 ^ n := Nat.mod_eq_of_lt (by omega)
  have hmod2 : (v / 10 ^ n + 48) % 256 = v / 10 ^ n + 48 := Nat.mod_eq_of_lt (by omega)
  simp only [dec_chars_long, List.head?_cons]
  rw [hp, hmod, hmod2]

theorem dec_chars_long_long_head (n v : Nat) (hn : n + 1 ≤ 20) (hv : v < 10 ^ (n + 1)) :
    (dec_chars_long_long (n + 1) v).head? = some (Char.ofNat (v / 10 ^ n + 48)) := by
  have hp : pow10_long_long.getD n 1 = 10 ^ n := pow10_long_long_getD n (by omega)
  have hpos : 0 < (10 : Nat) ^ n := pow_pos (by norm_num) n
  have hd : v / 10 ^ n < 10 := (Nat.div_lt_iff_lt_mul hpos).mpr (by
    have : (10 : Nat) ^ (n + 1) = 10 * 10 ^ n := by ring
    omega)
  have hmod : v / 10 ^ n % 256 = v / 10 ^ n := Nat.mod_eq_of_lt (by omega)
  have hmod2 : (v / 10 ^ n + 48) % 256 = v / 10 ^ n + 48 := Nat.mod_eq_of_lt (by omega)
  simp only [dec_chars_long_long, List.head?_cons]
  rw [hp, hmod, hmod2]

theorem digit_char_ne_minus (m : Nat) (h : m < 10) : Char.ofNat (m + 48) ≠ '-' := by
  intro hc
  have h2 := congrArg Char.toNat hc
  rw [char_toNat_ofNat_small (m + 48) (by omega)] at h2
  have h45 : ('-').toNat = 45 := rfl
  omega

/-- Parsing back the sign and digits produced for a signed 32-bit value. -/
theorem parseSigned_sign_digits_long (v : Int) (hlt : v.natAbs < 2 ^ 32) :
    parseSigned ((if v < 0 then ['-'] else []) ++
      (if v.natAbs = 0 then ['0']
       else dec_chars_long (get_digits_long v.natAbs BASE_DECIMAL) v.natAbs)) = v := by
  have hle := get_digits_long_dec_le v.natAbs
  have hltp := get_digits_long_dec_lt v.natAbs hlt
  by_cases hv : v < 0
  · have hm0 : v.natAbs ≠ 0 := by omega
    have hparse := parse_dec_nat_dec_chars_long _ _ hle hltp
    simp [hv, hm0, parseSigned, hparse, -Int.natCast_natAbs]
    omega
  · by_cases hm0 : v.natAbs = 0
    · have hv0 : v = 0 := by omega
      simp +decide [hv, hm0, hv0, parseSigned, parse_dec_nat, parse_dec_fold]
    · have hpos := get_digits_long_dec_pos v.natAbs (by omega)
      obtain ⟨k, hk⟩ : ∃ k, get_digits_long v.natAbs BASE_DECIMAL = k + 1 :=
        ⟨get_digits_long v.natAbs BASE_DECIMAL - 1, by omega⟩
      have hhead := dec_chars_long_head k v.natAbs (by omega) (by rw [← hk]; exact hltp)
      have hdig : v.natAbs / 10 ^ k < 10 := by
        have hpos10 : 0 < (10 : Nat) ^ k := pow_pos (by norm_num) k
        have : (10 : Nat) ^ (k + 1) = 10 * 10 ^ k := by ring
        rw [Nat.div_lt_iff_lt_mul hpos10]
        rw [hk] at hltp
        omega
      have hne := digit_char_ne_minus _ hdig
      have hparse := parse_dec_nat_dec_chars_long _ _ hle hltp
      rw [hk] at hparse
      simp [hv, hm0, parseSigned, hk, hhead, hne, hparse, -Int.natCast_natAbs]
      omega

/-- Parsing back the sign and digits produced for a signed 64-bit value. -/
theorem parseSigned_sign_digits_long_long (v : Int) (hlt : v.natAbs < 2 ^ 64) :
    parseSigned ((if v < 0 then ['-'] else []) ++
      (if v.natAbs = 0 then ['0']
       else dec_chars_long_long (get_digits_long_long v.natAbs BASE_DECIMAL) v.natAbs)) = v := by
  have hle := get_digits_long_long_dec_le v.natAbs
  have hltp := get_digits_long_long_dec_lt v.natAbs hlt
  by_cases hv : v < 0
  · have hm0 : v.natAbs ≠ 0 := by omega
    have hparse := parse_dec_nat_dec_chars_long_long _ _ hle hltp
    simp [hv, hm0, parseSigned, hparse, -Int.natCast_natAbs]
    omega
  · by_cases hm0 : v.natAbs = 0
    · have hv0 : v = 0 := by omega
      simp +decide [hv, hm0, hv0, parseSigned, parse_dec_nat, parse_dec_fold]
    · have hpos := get_digits_long_long_dec_pos v.natAbs (by omega)
      obtain ⟨k, hk⟩ : ∃ k, get_digits_long_long v.natAbs BASE_DECIMAL = k + 1 :=
        ⟨get_digits_long_long v.natAbs BASE_DECIMAL - 1, by omega⟩
      have hhead := dec_chars_long_long_head k v.natAbs (by omega) (by rw [← hk]; exact hltp)
      have hdig : v.natAbs / 10 ^ k < 10 := by
        have hpos10 : 0 < (10 : Nat) ^ k := pow_pos (by norm_num) k
        have : (10 : Nat) ^ (k + 1) = 10 * 10 ^ k := by ring
        rw [Nat.div_lt_iff_lt_mul hpos10]
        rw [hk] at hltp
        omega
      have hne := digit_char_ne_minus _ hdig
      have hparse := parse_dec_nat_dec_chars_long_long _ _ hle hltp
      rw [hk] at hparse
      simp [hv, hm0, parseSigned, hk, hhead, hne, hparse, -Int.natCast_natAbs]
      omega

/-! ## Further sink lemmas -/

theorem out_char_foldr_eq_filter (l : List Char) :
    l.foldr (fun c acc => out_char c ++ acc) [] = l.filter (fun c => c.toNat != 0) := by
  induction l with
  | nil => rfl
  | cons c cs ih =>
    simp only [List.foldr_cons, List.filter_cons, ih]
    by_cases h : c.toNat = 0 <;> simp [out_char, h]

theorem foldl_out_sprintf (cs : List Char) :
    ∀ (buf : List Char) (m : Nat),
      cs.foldl out_sprintf ⟨buf, m⟩ = ⟨buf ++ cs.take m, m - cs.length⟩ := by
  induction cs with
  | nil => intro buf m; simp
  | cons c cs ih =>
    intro buf m
    cases m with
    | zero => simp [out_sprintf, ih]
    | succ k => simp [out_sprintf, ih, List.take_succ_cons]

theorem sprintf_run_eq (n : Nat) (cs : List Char) :
    sprintf_run n cs = ⟨cs.take n, n - cs.length⟩ := by
  simpa [sprintf_run] using foldl_out_sprintf cs [] n

theorem snprintf_buffer_len (n : Nat) (cs : List Char) : (snprintf_buffer n cs).length ≤ n := by
  simp only [snprintf_buffer, sprintf_run_eq]
  split_ifs with h1 h2
  · have := List.length_take n cs
    simp at this ⊢
    omega
  · have hlen : (cs.take n).length = n := by
      simp
      omega
    simp [List.dropLast_eq_take, hlen]
    omega
  · simp

theorem snprintf_buffer_trunc (n : Nat) (cs : List Char) (h1 : 0 < n) (h2 : n ≤ cs.length) :
    snprintf_buffer n cs = cs.take (n - 1) ++ [nulChar] := by
  simp only [snprintf_buffer, sprintf_run_eq]
  have hm : n - cs.length = 0 := by omega
  have hlen : (cs.take n).length = n := by simp; omega
  simp [h1, hm, List.dropLast_eq_take, hlen, List.take_take]

theorem snprintf_buffer_fits (n : Nat) (cs : List Char) (h : cs.length < n) :
    snprintf_buffer n cs = cs ++ [nulChar] := by
  simp only [snprintf_buffer, sprintf_run_eq]
  have hm : n - cs.length ≠ 0 := by omega
  have hn : ¬ n = 0 := by omega
  simp [hn, hm, List.take_of_length_le (le_of_lt h)]

theorem snprintf_buffer_zero (cs : List Char) : snprintf_buffer 0 cs = [] := by
  simp [snprintf_buffer, sprintf_run_eq]

/-! ## Claims -/

/-- Claim C1 (code bug).  The claim says `emitted_count` (`data.idx`) increases
by one for every character the interpreter emits, including all padding
characters.  The code violates this: the trailing left-justification padding
loops of `ntoa_long`/`ntoa_long_long` (printf.c lines 352-361) write pad
spaces to the sink WITHOUT incrementing `idx`.  Evaluating the code at format
`"%-5d"` with argument 42: five characters (`"42   "`) are handed to the
sink, but the returned count is 2.  (The second half of the claim — that the
returned count does not depend on the sink's capacity — does hold, because
`idx` never depends on the sink at all; the third conjunct records it.) -/
theorem spec_C1 :
    (format_out ['%', '-', '5', 'd'] [arg_t.num 42]).emitted = ['4', '2', ' ', ' ', ' '] ∧
    (format_out ['%', '-', '5', 'd'] [arg_t.num 42]).idx = 2 ∧
    (snprintf_ 0 ['%', '-', '5', 'd'] [arg_t.num 42]).1 =
      (snprintf_ 4294967295 ['%', '-', '5', 'd'] [arg_t.num 42]).1 := by
  refine ⟨?_, ?_, rfl⟩ <;>
    simp +decide [format_out, format_out_loop, eval_directive, parse_flags, parse_width,
      parse_precision, parse_length, conv_spec, conv_int, va_arg_int, atoi, atoi_loop,
      toInt32, is_digit, flagsNone, pre_format_long, get_digits_long, get_digits_dec,
      pow10_long, ntoa_format, nf_step_reduce, nf_step_sign_width, nf_step_prec_width,
      nf_step_hash_width, nf_emit_spaces, nf_emit_sign, nf_emit_radix, nf_emit_zeros,
      ntoa_pad_spaces, ntoa_prec_zeros, ntoa_width_zeros, ntoa_long, ntoa_dec_long,
      ntoa_trail_spaces, do_out]

/-- Claim C2, counterexample.  The claim quantifies over all values
"including the value zero" with `d` the computed digit count.  For value 0
the computed digit count is 0 (`get_digits_long 0 = 0`), so with `w = 5` the
claim asserts exactly 5 output characters; but the code emits 5 pad spaces
(width was reduced by 0) and then `ntoa_long` emits the special-case `'0'`
digit anyway — 6 characters. -/
theorem spec_C2_counterexample :
    get_digits_long 0 BASE_DECIMAL = 0 ∧
    (format_out ['%', '5', 'u'] [arg_t.num 0]).emitted = [' ', ' ', ' ', ' ', ' ', '0'] ∧
    ¬ ((format_out ['%', '5', 'u'] [arg_t.num 0]).emitted.length = 5) := by
  have h : (format_out ['%', '5', 'u'] [arg_t.num 0]).emitted = [' ', ' ', ' ', ' ', ' ', '0'] := by
    simp +decide [format_out, format_out_loop, eval_directive, parse_flags, parse_width,
      parse_precision, parse_length, conv_spec, conv_int, va_arg_uint, atoi, atoi_loop,
      is_digit, flagsNone, pre_format_long, get_digits_long, get_digits_dec, pow10_long,
      ntoa_format, nf_step_reduce, nf_step_sign_width, nf_step_prec_width, nf_step_hash_width,
      nf_emit_spaces, nf_emit_sign, nf_emit_radix, nf_emit_zeros,
      ntoa_pad_spaces, ntoa_prec_zeros, ntoa_width_zeros, ntoa_long, ntoa_dec_long,
      ntoa_trail_spaces, do_out]
  exact ⟨rfl, h, by rw [h]; decide⟩

/-- Claim C2, amended: restricted to nonzero values (digit count ≥ 1).  For
every unsigned conversion of a nonzero value of either integer width, with
field width `w`, computed digit count `d ≤ w`, no precision/sign/alternate
form, right-justified: the rendering pipeline
(`pre_format` → `ntoa_format` → `ntoa`) emits exactly `w − d` pad characters
followed by the `d` digits, `w` characters in total. -/
theorem spec_C2 :
    (∀ (zp up : Bool) (b : base_t) (w v i : Nat) (es : List Char),
      v < 2 ^ 32 → v ≠ 0 → get_digits_long v b ≤ w →
      (ntoa_long (ntoa_format (pre_format_long
          ⟨⟨zp, false, false, false, false, up, false, false, false, false, false, false, false⟩,
           i, w, 0, b, 0, es⟩ v false)) v).emitted =
        es ++ List.replicate (w - get_digits_long v b) (if zp then '0' else ' ') ++
          (if b = BASE_DECIMAL then dec_chars_long (get_digits_long v b) v
           else base_chars (base_bits b) (base_mask b) up v (get_digits_long v b)) ∧
      (es ++ List.replicate (w - get_digits_long v b) (if zp then '0' else ' ') ++
          (if b = BASE_DECIMAL then dec_chars_long (get_digits_long v b) v
           else base_chars (base_bits b) (base_mask b) up v (get_digits_long v b))).length =
        es.length + w) ∧
    (∀ (zp up : Bool) (b : base_t) (w v i : Nat) (es : List Char),
      v < 2 ^ 64 → v ≠ 0 → get_digits_long_long v b ≤ w →
      (ntoa_long_long (ntoa_format (pre_format_long_long
          ⟨⟨zp, false, false, false, false, up, false, false, false, false, false, false, false⟩,
           i, w, 0, b, 0, es⟩ v false)) v).emitted =
        es ++ List.replicate (w - get_digits_long_long v b) (if zp then '0' else ' ') ++
          (if b = BASE_DECIMAL then dec_chars_long_long (get_digits_long_long v b) v
           else base_chars (base_bits b) (base_mask b) up v (get_digits_long_long v b)) ∧
      (es ++ List.replicate (w - get_digits_long_long v b) (if zp then '0' else ' ') ++
          (if b = BASE_DECIMAL then dec_chars_long_long (get_digits_long_long v b) v
           else base_chars (base_bits b) (base_mask b) up v (get_digits_long_long v b))).length =
        es.length + w) := by
  constructor
  · intro zp up b w v i es hlt hv0 hdw
    constructor
    · simp [pre_format_long, hv0, ntoa_long_emitted, ntoa_format_emitted, ntoa_format_flags,
        ntoa_format_width, ntoa_format_base, ntoa_format_digit_count, ntoa_format_precision,
        ntoa_digits_long, layout_spaces, layout_sign, layout_radix, layout_prec_zeros,
        layout_width_zeros, reduced_width, reduced_prec]
      cases zp <;> simp
    · cases b <;>
        simp [dec_chars_long_length, base_chars_length, List.length_replicate] <;>
        omega
  · intro zp up b w v i es hlt hv0 hdw
    constructor
    · simp [pre_format_long_long, hv0, ntoa_long_long_emitted, ntoa_format_emitted,
        ntoa_format_flags, ntoa_format_width, ntoa_format_base, ntoa_format_digit_count,
        ntoa_format_precision, ntoa_digits_long_long, layout_spaces, layout_sign,
        layout_radix, layout_prec_zeros, layout_width_zeros, reduced_width, reduced_prec]
      cases zp <;> simp
    · cases b <;>
        simp [dec_chars_long_long_length, base_chars_length, List.length_replicate] <;>
        omega

theorem spec_C2_witness :
    (ntoa_long (ntoa_format (pre_format_long
        ⟨⟨false, false, false, false, false, false, false, false, false, false, false, false,
          false⟩, 0, 5, 0, BASE_DECIMAL, 0, []⟩ 42 false)) 42).emitted =
      [] ++ List.replicate (5 - get_digits_long 42 BASE_DECIMAL) ' ' ++
        dec_chars_long (get_digits_long 42 BASE_DECIMAL) 42 := by
  have h := (spec_C2.1 false false BASE_DECIMAL 5 42 0 [] (by norm_num) (by norm_num)
    (by decide)).1
  simpa using h

/-- Claim C3 (confirmed).  With the precision-present flag set and value 0,
the numeric converters emit no digit characters at all (only the trailing
left-justify pad spaces, when that flag is set); `pre_format_long`/
`pre_format_long_long` clear the alternate-form (hash) flag whenever the
value is zero; and the full directive `"%.0d"` with value 0 produces the
empty output with count 0. -/
theorem spec_C3 :
    (∀ d : data_t, d.flags.precision = true →
      (ntoa_long d 0).emitted =
        d.emitted ++ (if d.flags.left then List.replicate d.width ' ' else [])) ∧
    (∀ d : data_t, d.flags.precision = true →
      (ntoa_long_long d 0).emitted =
        d.emitted ++ (if d.flags.left then List.replicate d.width ' ' else [])) ∧
    (∀ (d : data_t) (neg : Bool), (pre_format_long d 0 neg).flags.hash = false) ∧
    (∀ (d : data_t) (neg : Bool), (pre_format_long_long d 0 neg).flags.hash = false) ∧
    (format_out ['%', '.', '0', 'd'] [arg_t.num 0]).emitted = [] ∧
    (format_out ['%', '.', '0', 'd'] [arg_t.num 0]).idx = 0 := by
  refine ⟨?_, ?_, ?_, ?_, ?_, ?_⟩
  · intro d h
    rw [ntoa_long_emitted]
    simp [ntoa_digits_long, h]
  · intro d h
    rw [ntoa_long_long_emitted]
    simp [ntoa_digits_long_long, h]
  · intro d neg
    cases neg <;> simp [pre_format_long]
  · intro d neg
    cases neg <;> simp [pre_format_long_long]
  all_goals
    simp +decide [format_out, format_out_loop, eval_directive, parse_flags, parse_width,
      parse_precision, parse_length, conv_spec, conv_int, va_arg_int, atoi, atoi_loop,
      toInt32, is_digit, flagsNone, pre_format_long, get_digits_long, get_digits_dec,
      pow10_long, ntoa_format, nf_step_reduce, nf_step_sign_width, nf_step_prec_width,
      nf_step_hash_width, nf_emit_spaces, nf_emit_sign, nf_emit_radix, nf_emit_zeros,
      ntoa_pad_spaces, ntoa_prec_zeros, ntoa_width_zeros, ntoa_long, ntoa_dec_long,
      ntoa_trail_spaces, do_out]

theorem spec_C3_witness :
    (ntoa_long
      { flags := { flagsNone with precision := true }, idx := 0, width := 3, precision := 0,
        base := BASE_DECIMAL, digit_count := 0, emitted := [] } 0).emitted = [] := by
  rw [spec_C3.1 _ rfl]
  decide

/-- Claim C4 (confirmed).  The bounded sink stores exactly the first `n`
emitted characters (characters are copied only while the remaining capacity
is nonzero, otherwise dropped); the final buffer never exceeds `n` bytes;
with capacity exhausted the terminator overwrites the last stored byte; with
capacity remaining it is appended; and a zero-capacity buffer receives no
write at all, including no terminator. -/
theorem spec_C4 :
    (∀ (n : Nat) (fmt : List Char) (args : List arg_t),
      (sprintf_run n (format_out fmt args).emitted).buffer =
        (format_out fmt args).emitted.take n) ∧
    (∀ (n : Nat) (fmt : List Char) (args : List arg_t),
      (snprintf_ n fmt args).2.length ≤ n) ∧
    (∀ (n : Nat) (fmt : List Char) (args : List arg_t),
      0 < n → n ≤ (format_out fmt args).emitted.length →
      (snprintf_ n fmt args).2 = (format_out fmt args).emitted.take (n - 1) ++ [nulChar]) ∧
    (∀ (n : Nat) (fmt : List Char) (args : List arg_t),
      (format_out fmt args).emitted.length < n →
      (snprintf_ n fmt args).2 = (format_out fmt args).emitted ++ [nulChar]) ∧
    (∀ (fmt : List Char) (args : List arg_t), (snprintf_ 0 fmt args).2 = []) := by
  refine ⟨?_, ?_, ?_, ?_, ?_⟩
  · intro n fmt args
    simp [sprintf_run_eq]
  · intro n fmt args
    exact snprintf_buffer_len n _
  · intro n fmt args h1 h2
    exact snprintf_buffer_trunc n _ h1 h2
  · intro n fmt args h
    exact snprintf_buffer_fits n _ h
  · intro fmt args
    exact snprintf_buffer_zero _

theorem spec_C4_witness :
    (snprintf_ 1 [] []).2 = (format_out [] []).emitted ++ [nulChar] :=
  spec_C4.2.2.2.1 1 [] [] (by simp [format_out, format_out_loop])

/-- Claim C5 (confirmed).  The layout engine emits, in this exact order:
left-padding spaces (only if right-justified and not zero-padded), the sign
character (`-`, else `+` if force-sign, else space if space-sign), the
alternate-form marker, the precision zeros, the zero-pad zeros — and only
after all of that does the converter stream the digits (followed only by the
trailing left-justify padding).  The four concrete scenarios of the spec
check out: `"%5d"`/42 → `"   42"`, `"%-5d"`/42 → `"42   "`,
`"%05d"`/42 → `"00042"`, `"%#x"`/255 → `"0xff"`. -/
theorem spec_C5 :
    (∀ d : data_t,
      (ntoa_format d).emitted =
        d.emitted ++ layout_spaces d ++ layout_sign d ++ layout_radix d ++
          layout_prec_zeros d ++ layout_width_zeros d) ∧
    (∀ (d : data_t) (v : Nat),
      (ntoa_long d v).emitted =
        d.emitted ++ ntoa_digits_long d v ++
          (if d.flags.left then List.replicate d.width ' ' else [])) ∧
    (format_out ['%', '5', 'd'] [arg_t.num 42]).emitted = [' ', ' ', ' ', '4', '2'] ∧
    (format_out ['%', '-', '5', 'd'] [arg_t.num 42]).emitted = ['4', '2', ' ', ' ', ' '] ∧
    (format_out ['%', '0', '5', 'd'] [arg_t.num 42]).emitted = ['0', '0', '0', '4', '2'] ∧
    (format_out ['%', '#', 'x'] [arg_t.num 255]).emitted = ['0', 'x', 'f', 'f'] := by
  refine ⟨ntoa_format_emitted, ntoa_long_emitted, ?_, ?_, ?_, ?_⟩ <;>
    simp +decide [format_out, format_out_loop, eval_directive, parse_flags, parse_width,
      parse_precision, parse_length, conv_spec, conv_int, va_arg_int, va_arg_uint, atoi,
      atoi_loop, toInt32, is_digit, flagsNone, pre_format_long, get_digits_long,
      get_digits_dec, pow10_long, shift_digit_count, ntoa_format, nf_step_reduce,
      nf_step_sign_width, nf_step_prec_width, nf_step_hash_width, nf_emit_spaces,
      nf_emit_sign, nf_emit_radix, nf_emit_zeros, ntoa_pad_spaces, ntoa_prec_zeros,
      ntoa_width_zeros, ntoa_long, ntoa_dec_long, ntoa_base_loop, base_digit_char,
      base_bits, base_mask, ntoa_trail_spaces, do_out]

/-- Claim C9 (confirmed).  The device sink (`out_char`, used by
`printf_`/`vprintf_`) forwards a character to the external `_putchar`
primitive exactly when it is non-null; hence the device receives precisely
the non-null subsequence of the interpreter's emitted characters. -/
theorem spec_C9 :
    (∀ c : Char, (out_char c = [c] ↔ c.toNat ≠ 0) ∧ (out_char c = [] ↔ c.toNat = 0)) ∧
    (∀ (fmt : List Char) (args : List arg_t),
      printf_device fmt args = (format_out fmt args).emitted.filter (fun c => c.toNat != 0)) := by
  constructor
  · intro c
    by_cases h : c.toNat = 0 <;> simp [out_char, h]
  · intro fmt args
    simp [printf_device, out_char_foldr_eq_filter]

/-- Claim C10 (code bug).  The claim says the scanner never reads memory past
the terminating null.  But on a format string ending in a lone `'%'` the
specifier switch reads the terminator, takes the `default:` branch, emits it,
and advances the cursor PAST the null, continuing to scan whatever follows.
Concretely: two memories that agree on every position up to and including the
terminator (at position 1) — differing only in the byte at position 2, beyond
the string — produce different output, and the cursor ends at position 3. -/
theorem spec_C10 :
    mem_pct_junk 1 = nulChar ∧ mem_pct_clean 1 = nulChar ∧
    mem_pct_junk 0 = mem_pct_clean 0 ∧ mem_pct_junk 1 = mem_pct_clean 1 ∧
    (mem_format_out 16 mem_pct_junk 0 []
      { flags := flagsNone, idx := 0, width := 0, precision := 0, base := BASE_DECIMAL,
        digit_count := 0, emitted := [] }).1.emitted = [nulChar, 'A'] ∧
    (mem_format_out 16 mem_pct_clean 0 []
      { flags := flagsNone, idx := 0, width := 0, precision := 0, base := BASE_DECIMAL,
        digit_count := 0, emitted := [] }).1.emitted = [nulChar] ∧
    (mem_format_out 16 mem_pct_junk 0 []
      { flags := flagsNone, idx := 0, width := 0, precision := 0, base := BASE_DECIMAL,
        digit_count := 0, emitted := [] }).2 = 3 := by
  decide

/-! ## Scanner-level lemmas for the fallback and star-width claims -/

theorem parse_dec_fold_congr32 (ds : List Char) :
    ∀ a b : Nat, a % 2 ^ 32 = b % 2 ^ 32 →
      parse_dec_fold a ds % 2 ^ 32 = parse_dec_fold b ds % 2 ^ 32 := by
  induction ds with
  | nil =>
    intro a b h
    simpa [parse_dec_fold] using h
  | cons c cs ih =>
    intro a b h
    rw [show parse_dec_fold a (c :: cs) = parse_dec_fold (10 * a + (c.toNat - 48)) cs from rfl,
      show parse_dec_fold b (c :: cs) = parse_dec_fold (10 * b + (c.toNat - 48)) cs from rfl]
    exact ih _ _ (by omega)

theorem atoi_loop_digits (ds : List Char) :
    ∀ (i : Nat) (c0 : Char) (tail : List Char), i < 2 ^ 32 →
      (∀ c ∈ ds, is_digit c = true) → is_digit c0 = false →
      atoi_loop i (ds ++ c0 :: tail) = (parse_dec_fold i ds % 2 ^ 32, c0 :: tail) := by
  induction ds with
  | nil =>
    intro i c0 tail hi hds hc0
    simp [atoi_loop, hc0, parse_dec_fold]
    omega
  | cons c cs ih =>
    intro i c0 tail hi hds hc0
    have hc : is_digit c = true := hds c (by simp)
    have hcs : ∀ x ∈ cs, is_digit x = true := fun x hx => hds x (by simp [hx])
    rw [List.cons_append]
    rw [show atoi_loop i (c :: (cs ++ c0 :: tail)) =
      atoi_loop ((i * 10 + (c.toNat - 48)) % 2 ^ 32) (cs ++ c0 :: tail) from by
        simp [atoi_loop, hc]]
    rw [ih _ c0 tail (Nat.mod_lt _ (by norm_num)) hcs hc0]
    have hcongr := parse_dec_fold_congr32 cs ((i * 10 + (c.toNat - 48)) % 2 ^ 32)
      (10 * i + (c.toNat - 48)) (by omega)
    rw [hcongr]
    rfl

/-- Claim C7 (confirmed).  A directive whose conversion character is not one
of the supported set (`d i u x X o b c s p %`) falls into the specifier
switch's `default:` branch, which emits that literal character verbatim (not
the original `%`), consumes it, and the loop continues with the rest of the
format string; the interpreter is a total function, so no call aborts.  In
particular `"%q"` emits just `'q'`.  (The second conjunct states the
loop-level continuation for a bare `%c` directive: the character must then
also not be consumable as a flag, width, precision or length character.) -/
theorem spec_C7 :
    (∀ (c : Char) (args : List arg_t) (d : data_t),
      c ∉ (['d', 'i', 'u', 'x', 'X', 'o', 'b', 'c', 's', 'p', '%'] : List Char) →
      conv_spec c args d = (do_out d c, args)) ∧
    (∀ (c : Char) (rest : List Char) (args : List arg_t) (d : data_t),
      is_digit c = false →
      c ∉ (['0', '-', '+', ' ', '#', '*', '.', 'l', 'h', 't', 'j', 'z',
            'd', 'i', 'u', 'x', 'X', 'o', 'b', 'c', 's', 'p', '%'] : List Char) →
      format_out_loop ('%' :: c :: rest) args d =
        format_out_loop rest args
          (do_out { d with flags := flagsNone, width := 0, precision := 0 } c)) ∧
    (format_out ['%', 'q'] []).emitted = ['q'] := by
  refine ⟨?_, ?_, ?_⟩
  · intro c args d h
    simp only [List.mem_cons, List.not_mem_nil, or_false] at h
    push_neg at h
    obtain ⟨h1, h2, h3, h4, h5, h6, h7, h8, h9, h10, h11⟩ := h
    simp [conv_spec, h1, h2, h3, h4, h5, h6, h7, h8, h9, h10, h11]
  · intro c rest args d hdig h
    simp only [List.mem_cons, List.not_mem_nil, or_false] at h
    push_neg at h
    obtain ⟨g1, g2, g3, g4, g5, g6, g7, g8, g9, g10, g11, g12, h1, h2, h3, h4, h5, h6, h7,
      h8, h9, h10, h11⟩ := h
    simp +decide [format_out_loop, eval_directive, parse_flags, parse_width, parse_precision,
      parse_length, conv_spec, hdig, g1, g2, g3, g4, g5, g6, g7, g8, g9, g10, g11, g12,
      h1, h2, h3, h4, h5, h6, h7, h8, h9, h10, h11]
  · simp +decide [format_out, format_out_loop, eval_directive, parse_flags, parse_width,
      parse_precision, parse_length, conv_spec, is_digit, do_out]

theorem spec_C7_witness :
    format_out_loop ['%', 'q'] []
        { flags := flagsNone, idx := 0, width := 0, precision := 0, base := BASE_DECIMAL,
          digit_count := 0, emitted := [] } =
      format_out_loop [] []
        (do_out
          { flags := flagsNone, idx := 0, width := 0, precision := 0, base := BASE_DECIMAL,
            digit_count := 0, emitted := [] } 'q') :=
  spec_C7.2.1 'q' [] []
    { flags := flagsNone, idx := 0, width := 0, precision := 0, base := BASE_DECIMAL,
      digit_count := 0, emitted := [] } (by decide) (by decide)

/-- Claim C8 (confirmed).  A negative `*`-supplied width sets the left-justify
flag and uses the absolute value as the field width, so `%*d` applied to
`(-w, v)` behaves exactly like `%-<w>d` applied to `v` — the two runs agree
as whole interpreter states, for every positive `w ≤ 2^31` and every decimal
numeral `dc :: dcs` of `w` (no leading zero, since `0` would be eaten as a
flag).  In particular `"%*d"` with width argument −5 and value 3 produces
`"3    "`. -/
theorem spec_C8 :
    (∀ (w : Nat) (dc : Char) (dcs tail : List Char) (args : List arg_t) (d : data_t),
      0 < w → w ≤ 2 ^ 31 → dc ≠ '0' → is_digit dc = true →
      (∀ c ∈ dcs, is_digit c = true) → parse_dec_nat (dc :: dcs) = w →
      format_out_loop ('%' :: '*' :: 'd' :: tail) (arg_t.num (-(w : Int)) :: args) d =
        format_out_loop ('%' :: '-' :: (dc :: dcs ++ 'd' :: tail)) args d) ∧
    (format_out ['%', '*', 'd'] [arg_t.num (-5), arg_t.num 3]).emitted =
      ['3', ' ', ' ', ' ', ' '] := by
  constructor
  · intro w dc dcs tail args d hw0 hw31 hdc0 hdcd hdcs hval
    have hx : toInt32 (-(w : Int)) = -(w : Int) := by unfold toInt32; omega
    have hneg : (-(w : Int)) < 0 := by omega
    have hcast : ((w : Int) % 4294967296).toNat = w % 4294967296 := by omega
    have hd1 : dc ≠ '-' := by intro h; rw [h] at hdcd; simp [is_digit] at hdcd
    have hd2 : dc ≠ '+' := by intro h; rw [h] at hdcd; simp [is_digit] at hdcd
    have hd3 : dc ≠ ' ' := by intro h; rw [h] at hdcd; simp [is_digit] at hdcd
    have hd4 : dc ≠ '#' := by intro h; rw [h] at hdcd; simp [is_digit] at hdcd
    have hatoi := atoi_loop_digits (dc :: dcs) 0 'd' tail (by norm_num)
      (by
        intro c hc
        rcases List.mem_cons.mp hc with h | h
        · rw [h]; exact hdcd
        · exact hdcs c h)
      (by decide)
    rw [show parse_dec_fold 0 (dc :: dcs) = parse_dec_nat (dc :: dcs) from rfl, hval,
      List.cons_append] at hatoi
    have heval : eval_directive ('*' :: 'd' :: tail) (arg_t.num (-(w : Int)) :: args) d =
        eval_directive ('-' :: (dc :: dcs ++ 'd' :: tail)) args d := by
      simp +decide [eval_directive, parse_flags, parse_width, parse_precision, parse_length,
        va_arg_int, hx, hneg, hcast, hd1, hd2, hd3, hd4, hdc0, hdcd, atoi, hatoi]
    rw [show format_out_loop ('%' :: '*' :: 'd' :: tail) (arg_t.num (-(w : Int)) :: args) d =
        format_out_loop (eval_directive ('*' :: 'd' :: tail)
          (arg_t.num (-(w : Int)) :: args) d).2.2
          (eval_directive ('*' :: 'd' :: tail) (arg_t.num (-(w : Int)) :: args) d).2.1
          (eval_directive ('*' :: 'd' :: tail) (arg_t.num (-(w : Int)) :: args) d).1 from by
        simp +decide [format_out_loop]]
    rw [show format_out_loop ('%' :: '-' :: (dc :: dcs ++ 'd' :: tail)) args d =
        format_out_loop (eval_directive ('-' :: (dc :: dcs ++ 'd' :: tail)) args d).2.2
          (eval_directive ('-' :: (dc :: dcs ++ 'd' :: tail)) args d).2.1
          (eval_directive ('-' :: (dc :: dcs ++ 'd' :: tail)) args d).1 from by
        simp +decide [format_out_loop]]
    rw [heval]
  · simp +decide [format_out, format_out_loop, eval_directive, parse_flags, parse_width,
      parse_precision, parse_length, conv_spec, conv_int, va_arg_int, atoi, atoi_loop,
      toInt32, is_digit, flagsNone, pre_format_long, get_digits_long, get_digits_dec,
      pow10_long, ntoa_format, nf_step_reduce, nf_step_sign_width, nf_step_prec_width,
      nf_step_hash_width, nf_emit_spaces, nf_emit_sign, nf_emit_radix, nf_emit_zeros,
      ntoa_pad_spaces, ntoa_prec_zeros, ntoa_width_zeros, ntoa_long, ntoa_dec_long,
      ntoa_trail_spaces, do_out]

theorem spec_C8_witness :
    format_out_loop ['%', '*', 'd'] [arg_t.num (-((5 : Nat) : Int)), arg_t.num 3]
        { flags := flagsNone, idx := 0, width := 0, precision := 0, base := BASE_DECIMAL,
          digit_count := 0, emitted := [] } =
      format_out_loop ['%', '-', '5', 'd'] [arg_t.num 3]
        { flags := flagsNone, idx := 0, width := 0, precision := 0, base := BASE_DECIMAL,
          digit_count := 0, emitted := [] } :=
  spec_C8.1 5 '5' [] [] [arg_t.num 3]
    { flags := flagsNone, idx := 0, width := 0, precision := 0, base := BASE_DECIMAL,
      digit_count := 0, emitted := [] }
    (by norm_num) (by norm_num) (by decide) (by decide) (by simp) (by decide)

/-- Claim C6 (confirmed).  Rendering any value of each supported integer
width (`int` and `long` are 32-bit on the modelled platform, `long long` is
64-bit; signed and unsigned) in decimal and parsing the emitted digit
characters back (with the emitted `'-'` sign, if any) reproduces the value
exactly, over the full range of each width. -/
theorem spec_C6 :
    (∀ v : Int, -(2 ^ 31) ≤ v → v < 2 ^ 31 →
      parseSigned (format_out ['%', 'd'] [arg_t.num v]).emitted = v) ∧
    (∀ v : Int, -(2 ^ 31) ≤ v → v < 2 ^ 31 →
      parseSigned (format_out ['%', 'l', 'd'] [arg_t.num v]).emitted = v) ∧
    (∀ v : Int, -(2 ^ 63) ≤ v → v < 2 ^ 63 →
      parseSigned (format_out ['%', 'l', 'l', 'd'] [arg_t.num v]).emitted = v) ∧
    (∀ v : Int, 0 ≤ v → v < 2 ^ 32 →
      parseSigned (format_out ['%', 'u'] [arg_t.num v]).emitted = v) ∧
    (∀ v : Int, 0 ≤ v → v < 2 ^ 32 →
      parseSigned (format_out ['%', 'l', 'u'] [arg_t.num v]).emitted = v) ∧
    (∀ v : Int, 0 ≤ v → v < 2 ^ 64 →
      parseSigned (format_out ['%', 'l', 'l', 'u'] [arg_t.num v]).emitted = v) := by
  refine ⟨?_, ?_, ?_, ?_, ?_, ?_⟩
  · intro v h1 h2
    rw [run_pct_d v h1 h2]
    exact parseSigned_sign_digits_long v (by omega)
  · intro v h1 h2
    rw [run_pct_ld v h1 h2]
    exact parseSigned_sign_digits_long v (by omega)
  · intro v h1 h2
    rw [run_pct_lld v h1 h2]
    exact parseSigned_sign_digits_long_long v (by omega)
  · intro v h1 h2
    rw [run_pct_u v h1 h2]
    have h := parseSigned_sign_digits_long v (by omega)
    have hna : v.natAbs = v.toNat := by omega
    have hv : ¬ v < 0 := by omega
    simpa [hv, hna] using h
  · intro v h1 h2
    rw [run_pct_lu v h1 h2]
    have h := parseSigned_sign_digits_long v (by omega)
    have hna : v.natAbs = v.toNat := by omega
    have hv : ¬ v < 0 := by omega
    simpa [hv, hna] using h
  · intro v h1 h2
    rw [run_pct_llu v h1 h2]
    have h := parseSigned_sign_digits_long_long v (by omega)
    have hna : v.natAbs = v.toNat := by omega
    have hv : ¬ v < 0 := by omega
    simpa [hv, hna] using h

theorem spec_C6_witness :
    parseSigned (format_out ['%', 'd'] [arg_t.num (-42)]).emitted = -42 :=
  spec_C6.1 (-42) (by norm_num) (by norm_num)
